import Mathlib

/-!
# Verification of the EDXML SDK core (EDXMLBase.py / EDXMLDefinitions.py)

A shallow embedding of the sticky-hash computation, the event-merge engine,
object-value normalization and validation, and the schema-registry
consistency checks of the EDXML SDK, together with theorems settling the
specification claims about them.

Modelling conventions:
* Python byte/unicode strings are Lean `String`s; list-of-char work happens
  on `String.data`.
* Python `set` objects holding strings are modelled as canonically sorted,
  duplicate-free `List String` values (`ssInsert` keeps the invariant), so
  set equality is list equality and `sorted()` on such a set is the identity.
* Python exceptions are an explicit `PyErr` error type threaded through
  `Except`.  `self.Error` raises `EDXMLError`; the spec's error taxonomy maps
  the merge-on-non-unique raise to `unsupportedOperation`.
* Python 2 cross-type comparison quirks (`str < int`, `re.match(...) == False`)
  are modelled by the constant truth value they actually produce.
* `Decimal` / `%f` formatting is modelled with exact decimal arithmetic
  (`PyDec`); this agrees with CPython for values within double precision.
-/

namespace EDXML

/-! ## Characters, digits and low-level string utilities -/

def isDigitCh (c : Char) : Bool := '0' ≤ c && c ≤ '9'

def digitVal (c : Char) : Nat := c.toNat - '0'.toNat

def digitChar (n : Nat) : Char := Char.ofNat ('0'.toNat + n)

/-- Decimal rendering of a `Nat` (the digits of `%d`), by explicit fuel so
that the kernel can evaluate it (`n + 1` is always enough fuel). -/
def natDigitsAux : Nat → Nat → List Char
  | 0, _ => []
  | fuel + 1, n =>
    if n < 10 then [digitChar n]
    else natDigitsAux fuel (n / 10) ++ [digitChar (n % 10)]

def natDigits (n : Nat) : List Char := natDigitsAux (n + 1) n

/-- Parse a digit run, `none` if any character is not a digit.
The empty list parses to `0`; callers check non-emptiness themselves. -/
def parseDigitsFrom (acc : Nat) : List Char → Option Nat
  | [] => some acc
  | c :: cs => if isDigitCh c then parseDigitsFrom (acc * 10 + digitVal c) cs else none

def parseDigits (cs : List Char) : Option Nat := parseDigitsFrom 0 cs

/-- Left-pad the decimal rendering of `r` with zeros to width `w`
(used for the fractional part of `%.Nf`). -/
def zeroPad (w : Nat) (r : Nat) : List Char :=
  List.replicate (w - (natDigits r).length) '0' ++ natDigits r

/-- `str.split(sep)` on character lists, Python semantics:
the empty input yields one empty field. -/
def splitCh (sep : Char) : List Char → List (List Char)
  | [] => [[]]
  | c :: cs =>
    match splitCh sep cs with
    | [] => if c = sep then [[], []] else [[c]]
    | g :: gs => if c = sep then [] :: g :: gs else (c :: g) :: gs

/-- ASCII lowercasing, the effect of Python `.lower()` on the values the
claims exercise. -/
def asciiLower (c : Char) : Char :=
  if 'A' ≤ c && c ≤ 'Z' then Char.ofNat (c.toNat + 32) else c

def lowerStr (s : String) : String := ⟨s.data.map asciiLower⟩

/-! ## Lexicographic string order (Python unicode comparison) -/

def chLt (a b : Char) : Bool := decide (a < b)

def charListLt : List Char → List Char → Bool
  | [], [] => false
  | [], _ :: _ => true
  | _ :: _, [] => false
  | a :: as, b :: bs => if a < b then true else if b < a then false else charListLt as bs

def strLt (a b : String) : Bool := charListLt a.data b.data

/-! ## Python string sets as sorted duplicate-free lists -/

/-- `set.add`: insert keeping the canonical strictly-sorted representation. -/
def ssInsert (s : String) : List String → List String
  | [] => [s]
  | x :: xs =>
    if strLt s x then s :: x :: xs
    else if strLt x s then x :: ssInsert s xs
    else x :: xs

/-- `set(list)`: the canonical set of a list of strings. -/
def ssOfList (l : List String) : List String := l.foldl (fun acc s => ssInsert s acc) []

/-- Set union `A | B`. -/
def ssUnion (a b : List String) : List String := b.foldl (fun acc s => ssInsert s acc) a

def ssMem (s : String) (l : List String) : Bool := l.contains s

/-- Sorting a list of strings (the spec's "sort S lexicographically";
it also removes duplicates, which set insertion has already eliminated). -/
def sortStrings (l : List String) : List String := l.foldr ssInsert []

/-! ## Exact decimal values: the model of Python `Decimal` / `float` parsing

`PyDec` is a sign-magnitude fixed-point decimal: `mag` scaled by `10 ^ scale`,
negative when `neg` (a negative zero keeps its sign, as CPython's `%f` does). -/

structure PyDec where
  neg : Bool
  mag : Nat
  scale : Nat
  deriving Repr, DecidableEq

/-- The exact rational value scaled to an integer at `scale'` digits
(only used for comparisons at a common scale). -/
def PyDec.scaledVal (d : PyDec) (scale' : Nat) : Int :=
  let m : Int := (d.mag : Int) * (10 : Int) ^ (scale' - d.scale)
  if d.neg then -m else m

/-- Numeric comparison of two decimals. -/
def decLe (a b : PyDec) : Bool :=
  let s := Nat.max a.scale b.scale
  decide (a.scaledVal s ≤ b.scaledVal s)

def decEqv (a b : PyDec) : Bool :=
  let s := Nat.max a.scale b.scale
  decide (a.scaledVal s = b.scaledVal s)

/-- Split a character list at the first '.', failing on a second dot:
`some (ipart, fpart, dotted?)`. -/
def splitDot : List Char → Option (List Char × List Char × Bool)
  | [] => some ([], [], false)
  | c :: cs =>
    if c = '.' then
      if cs.contains '.' then none else some ([], cs, true)
    else
      match splitDot cs with
      | none => none
      | some (ip, fp, d) => some (c :: ip, fp, d)

/-- Strip a leading sign: `(negative?, remaining)`.  An empty remainder
makes the numeric parsers fail. -/
def parseSign : List Char → Bool × List Char
  | [] => (false, [])
  | c :: rest =>
    if c = '-' then (true, rest)
    else if c = '+' then (false, rest)
    else (false, c :: rest)

/-- Parse a plain decimal literal (optional sign, digits, optional fraction) —
the model of `Decimal(value)` and of `float(value)` on the values the claims
exercise (exponent forms and surrounding whitespace are outside the model). -/
def parsePyDec (s : String) : Option PyDec :=
  let nb := parseSign s.data
  if nb.2.isEmpty then none
  else
    match splitDot nb.2 with
    | none => none
    | some (ip, fp, _) =>
      if ip.isEmpty && fp.isEmpty then none
      else
        match parseDigits ip, parseDigits fp with
        | some i, some f => some ⟨nb.1, i * 10 ^ fp.length + f, fp.length⟩
        | _, _ => none

/-- Round a magnitude from `scale` fractional digits down to `p` digits,
half-to-even (the rounding of C `printf`/CPython float formatting). -/
def roundMagTo (mag scale p : Nat) : Nat :=
  if scale ≤ p then mag * 10 ^ (p - scale)
  else
    let d := 10 ^ (scale - p)
    let q := mag / d
    let r := mag % d
    if 2 * r > d then q + 1
    else if 2 * r < d then q
    else if q % 2 = 0 then q else q + 1

/-- Render a sign-magnitude decimal with exactly `p` fractional digits. -/
def renderFixed (neg : Bool) (m p : Nat) : String :=
  ⟨(if neg then ['-'] else []) ++ natDigits (m / 10 ^ p) ++
    (if p = 0 then [] else '.' :: zeroPad p (m % 10 ^ p))⟩

/-- `'%.pf' % v`: fixed-point formatting with `p` fractional digits. -/
def formatFixed (d : PyDec) (p : Nat) : String :=
  renderFixed d.neg (roundMagTo d.mag d.scale p) p

/-- Python `int(value)` on a string: optional sign and a non-empty digit run. -/
def parsePyInt (s : String) : Option Int :=
  let nb := parseSign s.data
  if nb.2.isEmpty then none
  else
    match parseDigits nb.2 with
    | some n => some (if nb.1 then -(n : Int) else (n : Int))
    | none => none

/-- `'%d' % i` / `str(i)` for a Python int. -/
def pyIntStr (i : Int) : String :=
  ⟨(if i < 0 then ['-'] else []) ++ natDigits i.natAbs⟩

/-- `str(d)` for a `Decimal` built from a plain literal: sign and stored
digits at the stored scale (leading zeros and '+' are dropped at
construction; the scale is preserved). -/
def pyDecStr (d : PyDec) : String := renderFixed d.neg d.mag d.scale

/-! ## Error model -/

/-- The exceptions the embedded code can raise.  `edxmlError` is a
`self.Error` raise; `unsupportedOperation` is specifically the
`self.Error` in `MergeEvents` for a non-unique event type (the spec's
`UnsupportedOperation` kind). -/
inductive PyErr where
  | edxmlError
  | unsupportedOperation
  | keyError
  | indexError
  | valueError
  deriving Repr, DecidableEq

/-! ## EDXMLBase.NormalizeObject

Faithful to `EDXMLBase.py` lines 301-345.  `dt` is the already-split data
type (`DataType` is passed split on ':' by every caller). -/

def NormalizeObject (value : String) (dt : List String) : Except PyErr String :=
  match dt.head? with
  | none => .error .indexError
  | some d0 =>
    if d0 = "timestamp" then
      -- u'%.6f' % Decimal(Value)
      match parsePyDec value with
      | none => .error .valueError
      | some d => .ok (formatFixed d 6)
    else if d0 = "number" then
      match dt.get? 1 with
      | none => .error .indexError
      | some d1 =>
        if d1 = "decimal" then
          -- unicode('%.' + DataType[3] + 'f') % Decimal(Value)
          match dt.get? 3 with
          | none => .error .indexError
          | some ps =>
            match parseDigits ps.data with
            | none => .error .valueError
            | some p =>
              match parsePyDec value with
              | none => .error .valueError
              | some d => .ok (formatFixed d p)
        else if d1 = "tinyint" || d1 = "smallint" || d1 = "mediumint" ||
                d1 = "int" || d1 = "bigint" then
          -- u'%d' % int(Value)
          match parsePyInt value with
          | none => .error .valueError
          | some i => .ok (pyIntStr i)
        else
          -- u'%f' % float(Value)
          match parsePyDec value with
          | none => .error .valueError
          | some d => .ok (formatFixed d 6)
    else if d0 = "ip" then
      -- '%d.%d.%d.%d' % (int(o0), int(o1), int(o2), int(o3)); extra octets
      -- are ignored, any failure becomes self.Error
      let octets := (splitCh '.' value.data).map (fun cs => String.mk cs)
      match octets.get? 0, octets.get? 1, octets.get? 2, octets.get? 3 with
      | some o0, some o1, some o2, some o3 =>
        match parsePyInt o0, parsePyInt o1, parsePyInt o2, parsePyInt o3 with
        | some i0, some i1, some i2, some i3 =>
          .ok (pyIntStr i0 ++ "." ++ pyIntStr i1 ++ "." ++ pyIntStr i2 ++ "." ++ pyIntStr i3)
        | _, _, _, _ => .error .edxmlError
      | _, _, _, _ => .error .edxmlError
    else if d0 = "string" then
      -- unicode conversion is the identity here; 'ci' lowercases
      match dt.get? 2 with
      | none => .error .indexError
      | some d2 => .ok (if d2 = "ci" then lowerStr value else value)
    else if d0 = "boolean" then
      .ok (lowerStr value)
    else
      .ok value

/-! ## EDXMLBase.ValidateObject helpers -/

/-- Python 2: `<str> < 0` compares a string with an int and is always
`False` (ints sort before strings), so the unsigned-negativity checks in
`ValidateObject` can never fire on string values. -/
def pyStrLtIntZero (_v : String) : Bool := false

/-- Python 2: `len(Value) > ObjectDataType[1]` compares an int with a str
and is always `False`, so the binstring length check can never fire. -/
def pyIntGtStr (_n : Nat) (_s : String) : Bool := false

/-- `re.match(HashlinkPattern, v)`: `^[0-9a-zA-Z]{40}$`. -/
def hashlinkMatch (v : String) : Option Unit :=
  if v.data.length = 40 && v.data.all (fun c => isDigitCh c || ('a' ≤ c && c ≤ 'z') || ('A' ≤ c && c ≤ 'Z'))
  then some () else none

/-- `re.match(StringDataTypePattern, s)`: `string:[0-9]+:((cs)|(ci))(:[ru]+)?`
matched as a prefix of `s`. -/
def stringDataTypeMatch (s : String) : Option Unit :=
  match splitCh ':' s.data with
  | t :: len :: cfg :: rest =>
    if t = "string".data && len ≠ [] && len.all isDigitCh &&
       (cfg = "cs".data || cfg = "ci".data) &&
       (match rest with
        | [] => true
        | flags :: _ => flags ≠ [] && flags.all (fun c => c = 'r' || c = 'u'))
    then some () else none
  | _ => none

/-- `re.match(BinstringDataTypePattern, s)`: `binstring:[0-9]+(:r)?` as a
prefix of `s`. -/
def binstringDataTypeMatch (s : String) : Option Unit :=
  match splitCh ':' s.data with
  | t :: len :: rest =>
    if t = "binstring".data && len ≠ [] && len.all isDigitCh &&
       (match rest with
        | [] => true
        | _ :: _ => true)
    then some () else none
  | _ => none

/-- Python: `<match-or-None> == False` is always `False` — `None == False`
and `<MatchObject> == False` are both falsy equalities.  The source guards
its string, binstring and hashlink pattern checks with this comparison, so
those error branches are dead. -/
def reMatchEqFalse (_m : Option Unit) : Bool := false

/-- Model of `float(value)` succeeding (Python accepts sign, digits with an
optional fraction; exponent and inf/nan forms are outside the model). -/
def pyFloatOk (v : String) : Bool := (parsePyDec v).isSome

/-- `value.decode('hex')` succeeding: even length, all hex digits. -/
def pyHexDecodeOk (v : String) : Bool :=
  v.data.length % 2 = 0 &&
  v.data.all (fun c => isDigitCh c || ('a' ≤ c && c ≤ 'f') || ('A' ≤ c && c ≤ 'F'))

/-! ## EDXMLBase.ValidateObject

Faithful to `EDXMLBase.py` lines 187-299, on string-valued objects.
The unicode-conversion preludes of the `string` branch are the identity in
this model. -/

def ValidateObject (value : String) (_objectTypeName : String) (dataType : String)
    : Except PyErr Unit :=
  let dt := (splitCh ':' dataType.data).map (fun cs => String.mk cs)
  match dt.head? with
  | none => .error .indexError
  | some d0 =>
    if d0 = "timestamp" then
      if pyFloatOk value then .ok () else .error .edxmlError
    else if d0 = "number" then
      match dt.get? 1 with
      | none => .error .indexError
      | some d1 =>
        if d1 = "decimal" then
          if dt.length < 5 then
            if pyStrLtIntZero value then .error .edxmlError else .ok ()
          else .ok ()
        else if d1 = "hex" then
          if dt.length > 3 then
            match dt.get? 5 with
            | none => .error .indexError
            | some sep =>
              let value' :=
                if sep.data.length = 0 then ⟨value.data.filter (fun c => c ≠ ':')⟩
                else value
              if pyHexDecodeOk value' then .ok () else .error .edxmlError
          else
            if pyHexDecodeOk value then .ok () else .error .edxmlError
        else if d1 = "float" || d1 = "double" then
          if !pyFloatOk value then .error .edxmlError
          else if dt.length < 3 then
            if pyStrLtIntZero value then .error .edxmlError else .ok ()
          else .ok ()
        else
          if dt.length < 3 then
            if pyStrLtIntZero value then .error .edxmlError else .ok ()
          else .ok ()
    else if d0 = "geo" then
      match dt.get? 1 with
      | none => .error .indexError
      | some _ => .ok ()
    else if d0 = "string" then
      if reMatchEqFalse (stringDataTypeMatch dataType) then .error .edxmlError
      else
        match dt.get? 1 with
        | none => .error .indexError
        | some lenStr =>
          match parsePyInt lenStr with
          | none => .error .valueError
          | some len =>
            if 0 < len && (value.data.length : Int) > len then .error .edxmlError
            else
              if dt.length < 4 ||
                 !(((dt.get? 3).getD "").data.contains 'u') then
                if value.data.all (fun c => c.toNat ≤ 255) then .ok ()
                else .error .edxmlError
              else .ok ()
    else if d0 = "binstring" then
      if reMatchEqFalse (binstringDataTypeMatch dataType) then .error .edxmlError
      else
        match dt.get? 1 with
        | none => .error .indexError
        | some lenStr =>
          if pyIntGtStr value.data.length lenStr then .error .edxmlError else .ok ()
    else if d0 = "hashlink" then
      if reMatchEqFalse (hashlinkMatch value) then .error .edxmlError else .ok ()
    else if d0 = "ip" then
      let parts := (splitCh '.' value.data).map (fun cs => String.mk cs)
      if parts.length ≠ 4 then .error .edxmlError
      else
        if parts.all (fun p =>
             match parsePyInt p with
             | none => false
             | some i => 0 ≤ i && i ≤ 255)
        then .ok () else .error .edxmlError
    else if d0 = "boolean" then
      if lowerStr value = "true" || lowerStr value = "false" then .ok ()
      else .error .edxmlError
    else if d0 = "enum" then
      if dt.tail.contains value then .ok () else .error .edxmlError
    else
      .error .edxmlError

/-! ## SHA-1 (`hashlib.sha1(...).hexdigest()`), over explicit UTF-8 bytes -/

def rotl32 (n x : Nat) : Nat := ((x <<< n) ||| (x >>> (32 - n))) % 4294967296

def utf8Ch (c : Char) : List Nat :=
  let v := c.toNat
  if v < 128 then [v]
  else if v < 2048 then [192 ||| (v >>> 6), 128 ||| (v &&& 63)]
  else if v < 65536 then
    [224 ||| (v >>> 12), 128 ||| ((v >>> 6) &&& 63), 128 ||| (v &&& 63)]
  else
    [240 ||| (v >>> 18), 128 ||| ((v >>> 12) &&& 63), 128 ||| ((v >>> 6) &&& 63), 128 ||| (v &&& 63)]

def utf8Bytes (s : String) : List Nat := s.data.foldr (fun c acc => utf8Ch c ++ acc) []

def sha1Pad (msg : List Nat) : List Nat :=
  let len := msg.length
  let k := (119 - (len % 64)) % 64
  msg ++ [128] ++ List.replicate k 0 ++
    (List.range 8).map (fun i => ((8 * len) >>> (8 * (7 - i))) &&& 255)

def bytesToWords : List Nat → List Nat
  | b0 :: b1 :: b2 :: b3 :: rest =>
    ((((b0 <<< 8) ||| b1) <<< 8 ||| b2) <<< 8 ||| b3) :: bytesToWords rest
  | _ => []

def chunks64 (l : List Nat) : List (List Nat) :=
  if h : l = [] then []
  else l.take 64 :: chunks64 (l.drop 64)
  termination_by l.length
  decreasing_by
    have hl : 0 < l.length := List.length_pos.mpr h
    have : (l.drop 64).length = l.length - 64 := l.length_drop 64
    omega

def sha1Extend (w : Array Nat) : Array Nat :=
  (List.range 64).foldl
    (fun w i =>
      w.push (rotl32 1 ((w.getD (i + 13) 0) ^^^ (w.getD (i + 8) 0) ^^^
                        (w.getD (i + 2) 0) ^^^ (w.getD i 0))))
    w

def sha1Round (w : Array Nat) (st : Nat × Nat × Nat × Nat × Nat) (i : Nat) :
    Nat × Nat × Nat × Nat × Nat :=
  let (a, b, c, d, e) := st
  let f :=
    if i < 20 then (b &&& c) ||| ((b ^^^ 4294967295) &&& d)
    else if i < 40 then b ^^^ c ^^^ d
    else if i < 60 then (b &&& c) ||| (b &&& d) ||| (c &&& d)
    else b ^^^ c ^^^ d
  let k :=
    if i < 20 then 1518500249
    else if i < 40 then 1859775393
    else if i < 60 then 2400959708
    else 3395469782
  let tmp := (rotl32 5 a + f + e + k + w.getD i 0) % 4294967296
  (tmp, a, rotl32 30 b, c, d)

def sha1Chunk (h : Nat × Nat × Nat × Nat × Nat) (chunk : List Nat) :
    Nat × Nat × Nat × Nat × Nat :=
  let w := sha1Extend (Array.mk (bytesToWords chunk))
  let (h0, h1, h2, h3, h4) := h
  let (a, b, c, d, e) := (List.range 80).foldl (sha1Round w) (h0, h1, h2, h3, h4)
  ((h0 + a) % 4294967296, (h1 + b) % 4294967296, (h2 + c) % 4294967296,
   (h3 + d) % 4294967296, (h4 + e) % 4294967296)

def hexDigit (n : Nat) : Char :=
  if n < 10 then digitChar n else Char.ofNat ('a'.toNat + (n - 10))

def hex8 (n : Nat) : List Char :=
  (List.range 8).map (fun i => hexDigit ((n >>> (4 * (7 - i))) &&& 15))

/-- `hashlib.sha1(s.encode('utf-8')).hexdigest()`: the lowercase 40-character
hex SHA-1 digest of the UTF-8 encoding of `s`. -/
def sha1HexUtf8 (s : String) : String :=
  let (h0, h1, h2, h3, h4) :=
    (chunks64 (sha1Pad (utf8Bytes s))).foldl sha1Chunk
      (1732584193, 4023233417, 2562383102, 271733878, 3285377520)
  ⟨hex8 h0 ++ hex8 h1 ++ hex8 h2 ++ hex8 h3 ++ hex8 h4⟩

/-! ## Dictionaries (Python dicts as association lists; first match wins) -/

def alookup {α : Type} : List (String × α) → String → Option α
  | [], _ => none
  | (k', v) :: rest, k => if k = k' then some v else alookup rest k

/-- `d[k] = v`: replace in place, or append a new key. -/
def aset {α : Type} : List (String × α) → String → α → List (String × α)
  | [], k, v => [(k, v)]
  | (k', v') :: rest, k, v =>
    if k = k' then (k, v) :: rest else (k', v') :: aset rest k v

/-- `d.update(other)`. -/
def aupdate {α : Type} (m other : List (String × α)) : List (String × α) :=
  other.foldl (fun m kv => aset m kv.1 kv.2) m

abbrev AttrMap := List (String × String)

/-! ## The attribute grammar (`EDXMLDefinitions.__init__`, lines 99-169)

`re.match` anchors at the start of the string only; a `^...|...$` pattern
therefore alternates between an anchored first branch, bare prefix branches,
and a full-match last branch.  Each compiled pattern of the source is one
constructor, interpreted by `pyPatternMatch` with those Python semantics. -/

inductive PyPattern where
  | simpleName | displayName | trueFalse | decimalPat | sourceDate
  | mergeOptions | relationType | fuzzyMatching | dataType
  deriving Repr, DecidableEq

def startsWithStr (p : String) (cs : List Char) : Bool := p.data.isPrefixOf cs

def stripPre (p : String) (cs : List Char) : Option (List Char) :=
  if p.data.isPrefixOf cs then some (cs.drop p.data.length) else none

def digitsThen (cs : List Char) : List Char × List Char :=
  (cs.takeWhile isDigitCh, cs.dropWhile isDigitCh)

/-- Full match of the `$`-anchored tail alternative of `DataTypePattern`
(the `number`/`enum`/`geo`/`string`/`binstring` group). -/
def dataTypeFull (cs : List Char) : Bool :=
  (match stripPre "number:decimal:" cs with
   | some rest =>
     let (d1, r1) := digitsThen rest
     d1 ≠ [] &&
       (match r1 with
        | ':' :: r2 =>
          let (d2, r3) := digitsThen r2
          d2 ≠ [] && (r3 = [] || r3 = ":signed".data)
        | _ => false)
   | none => false) ||
  (match stripPre "number:hex:" cs with
   | some rest =>
     let (d1, r1) := digitsThen rest
     d1 ≠ [] &&
       (r1 = [] ||
        (match r1 with
         | ':' :: r2 =>
           let (d2, r3) := digitsThen r2
           d2 ≠ [] && (match r3 with
                       | [':', c] => c ≠ '\n'
                       | _ => false)
         | _ => false))
   | none => false) ||
  (match stripPre "number:" cs with
   | some rest =>
     ["int", "tinyint", "smallint", "mediumint", "bigint", "float", "double"].any
       (fun k => rest = k.data || rest = (k ++ ":signed").data)
   | none => false) ||
  (match stripPre "enum:" cs with
   | some rest => rest.all (fun c => c ≠ '\n')
   | none => false) ||
  cs = "geo:point".data ||
  (match stripPre "string:" cs with
   | some rest =>
     let (d1, r1) := digitsThen rest
     d1 ≠ [] &&
       (match r1 with
        | ':' :: r2 =>
          (["cs", "ci"].any fun k =>
            match stripPre k r2 with
            | some r3 =>
              r3 = [] ||
              (match r3 with
               | ':' :: fl => fl ≠ [] && fl.all (fun c => c = 'r' || c = 'u')
               | _ => false)
            | none => false)
        | _ => false)
   | none => false) ||
  (match stripPre "binstring:" cs with
   | some rest =>
     let (d1, r1) := digitsThen rest
     d1 ≠ [] && (r1 = [] || r1 = ":r".data)
   | none => false)

def pyPatternMatch : PyPattern → String → Bool
  | .simpleName, s =>
    -- "^[a-z0-9-]*$"
    s.data.all (fun c => ('a' ≤ c && c ≤ 'z') || isDigitCh c || c = '-')
  | .displayName, s =>
    -- "^[ a-zA-Z0-9]+/[ a-zA-Z0-9]+$" (the class excludes '/')
    (match splitCh '/' s.data with
     | [a, b] =>
       a ≠ [] && b ≠ [] &&
       (a ++ b).all (fun c =>
         c = ' ' || ('a' ≤ c && c ≤ 'z') || ('A' ≤ c && c ≤ 'Z') || isDigitCh c)
     | _ => false)
  | .trueFalse, s =>
    -- "^(true)|(false)$": prefix "true", or the whole string "false"
    startsWithStr "true" s.data || s = "false"
  | .decimalPat, s =>
    -- "^[0-9.]+$"
    s.data ≠ [] && s.data.all (fun c => isDigitCh c || c = '.')
  | .sourceDate, s =>
    -- "^[0-9]{8}$"
    s.data.length = 8 && s.data.all isDigitCh
  | .mergeOptions, s =>
    -- "^(drop)|(add)|(replace)|(min)|(max)|(match)$"
    ["drop", "add", "replace", "min", "max"].any (fun k => startsWithStr k s.data) ||
    s = "match"
  | .relationType, s =>
    -- "^(intra|inter|parent|child|other):.+"
    ["intra", "inter", "parent", "child", "other"].any (fun k =>
      match stripPre (k ++ ":") s.data with
      | some (c :: _) => c ≠ '\n'
      | _ => false)
  | .fuzzyMatching, s =>
    -- "^(none)|(phonetic)|(\[[0-9]{1,2}:\])|(\[:[0-9]{1,2}\])$"
    startsWithStr "none" s.data || startsWithStr "phonetic" s.data ||
    (match s.data with
     | '[' :: rest =>
       let (d, r) := digitsThen rest
       (d.length = 1 || d.length = 2) && startsWithStr ":]" r
     | _ => false) ||
    (match s.data with
     | '[' :: ':' :: rest =>
       let (d, r) := digitsThen rest
       (d.length = 1 || d.length = 2) && r = [']']
     | _ => false)
  | .dataType, s =>
    -- "^(boolean)|(timestamp)|(ip)|(hashlink)|( <full-match group> )$"
    startsWithStr "boolean" s.data || startsWithStr "timestamp" s.data ||
    startsWithStr "ip" s.data || startsWithStr "hashlink" s.data ||
    dataTypeFull s.data

/-- One row of `EDXMLEntityAttributes`: `mandatory`, `length`, `pattern`,
`default` (named `dflt` here). -/
structure AttrSpec where
  mandatory : Bool
  maxLength : Option Nat
  pattern : Option PyPattern
  dflt : Option String
  deriving Repr, DecidableEq

/-- `self.EDXMLEntityAttributes` (lines 126-169), verbatim. -/
def EDXMLEntityAttributes : List (String × List (String × AttrSpec)) :=
  [("eventtype",
    [("name", ⟨true, some 40, some .simpleName, none⟩),
     ("display-name", ⟨false, some 64, some .displayName, some "/"⟩),
     ("description", ⟨true, some 128, none, none⟩),
     ("classlist", ⟨true, none, none, none⟩),
     ("reporter-short", ⟨true, none, none, none⟩),
     ("reporter-long", ⟨true, none, none, none⟩)]),
   ("property",
    [("name", ⟨true, some 64, some .simpleName, none⟩),
     ("description", ⟨true, some 128, none, none⟩),
     ("similar", ⟨false, some 64, none, none⟩),
     ("object-type", ⟨true, some 40, some .simpleName, none⟩),
     ("unique", ⟨false, none, some .trueFalse, some "false"⟩),
     ("merge", ⟨false, none, some .mergeOptions, some "drop"⟩),
     ("defines-entity", ⟨false, none, some .trueFalse, some "false"⟩),
     ("entity-confidence", ⟨false, none, some .decimalPat, some "0"⟩)]),
   ("relation",
    [("property1", ⟨true, some 64, some .simpleName, none⟩),
     ("property2", ⟨true, some 64, some .simpleName, none⟩),
     ("directed", ⟨false, none, some .trueFalse, some "true"⟩),
     ("description", ⟨true, some 255, none, none⟩),
     ("type", ⟨true, some 32, some .relationType, none⟩),
     ("confidence", ⟨true, none, some .decimalPat, none⟩)]),
   ("objecttype",
    [("name", ⟨true, some 40, some .simpleName, none⟩),
     ("display-name", ⟨false, some 64, some .displayName, some "/"⟩),
     ("description", ⟨true, some 128, none, none⟩),
     ("fuzzy-matching", ⟨false, none, some .fuzzyMatching, some "none"⟩),
     ("compress", ⟨false, none, some .trueFalse, some "false"⟩),
     ("enp", ⟨false, none, none, some "0"⟩),
     ("regexp", ⟨false, some 128, none, some "[\\s\\S]*"⟩),
     ("data-type", ⟨true, none, some .dataType, none⟩)]),
   ("source",
    [("source-id", ⟨true, none, none, none⟩),
     ("url", ⟨true, none, none, none⟩),
     ("date-acquired", ⟨true, none, some .sourceDate, none⟩),
     ("description", ⟨true, some 128, none, none⟩)])]

/-! ## The registry -/

structure EventTypeRec where
  attributes : AttrMap
  properties : List (String × AttrMap)
  uniqueProperties : List String
  mandatoryProperties : List String
  singletonProperties : List String
  parentmapping : List (String × String)
  relations : List (String × AttrMap)
  relatedProperties : List String
  unique : Bool
  parent : Option AttrMap
  deriving Repr, DecidableEq

structure EDXMLDefinitions where
  EventTypes : List (String × EventTypeRec)
  ObjectTypes : List (String × AttrMap)
  PropertyNames : List (String × List String)
  EventTypeNames : List String
  RequiredObjectTypes : List String
  ObjectTypeEventTypes : List (String × List String)
  EntityProperties : List (String × List String)
  EventTypeClasses : List (String × List String)
  deriving Repr, DecidableEq

def EventTypeIsUnique (defs : EDXMLDefinitions) (etn : String) : Except PyErr Bool :=
  match alookup defs.EventTypes etn with
  | none => .error .keyError
  | some r => .ok r.unique

def PropertyIsUnique (defs : EDXMLDefinitions) (etn p : String) : Except PyErr Bool :=
  match alookup defs.EventTypes etn with
  | none => .error .keyError
  | some r => .ok (ssMem p r.uniqueProperties)

def GetEventTypeProperties (defs : EDXMLDefinitions) (etn : String) :
    Except PyErr (List String) :=
  match alookup defs.PropertyNames etn with
  | none => .error .keyError
  | some l => .ok l

def GetPropertyObjectType (defs : EDXMLDefinitions) (etn p : String) :
    Except PyErr String :=
  match alookup defs.EventTypes etn with
  | none => .error .edxmlError
  | some r =>
    match alookup r.properties p with
    | none => .error .edxmlError
    | some attrs =>
      match alookup attrs "object-type" with
      | none => .error .keyError
      | some ot => .ok ot

def GetObjectTypeDataType (defs : EDXMLDefinitions) (ot : String) :
    Except PyErr String :=
  match alookup defs.ObjectTypes ot with
  | none => .error .keyError
  | some attrs =>
    match alookup attrs "data-type" with
    | none => .error .keyError
    | some dt => .ok dt

/-! ## ValidateEdxmlEntityAttributes (lines 825-849)

`if Value:` is Python truthiness: the length and pattern checks are skipped
both for absent optional attributes and for present empty strings. -/

def validateOneAttr (attrs : AttrMap) (row : String × AttrSpec) : Except PyErr Unit :=
  match alookup attrs row.1 with
  | none => if row.2.mandatory then .error .edxmlError else .ok ()
  | some v =>
    if v = "" then .ok ()
    else do
      match row.2.maxLength with
      | some len => if v.data.length > len then .error .edxmlError else .ok ()
      | none => .ok ()
      match row.2.pattern with
      | some pat => if pyPatternMatch pat v then .ok () else .error .edxmlError
      | none => .ok ()

def ValidateEdxmlEntityAttributes (entity : String) (attrs : AttrMap) :
    Except PyErr Unit :=
  match alookup EDXMLEntityAttributes entity with
  | none => .error .keyError
  | some table => do
    (table.foldlM (fun _ row => validateOneAttr attrs row) ())
    if attrs.any (fun kv => (alookup table kv.1).isNone) then .error .edxmlError
    else .ok ()

/-! ## CheckEdxmlEntityConsistency (lines 777-818) -/

/-- The per-attribute check for an attribute present only in the update
("added"): mandatory → error; optional with a default → error unless the
new value equals the default; optional without a default → error.
`AttribsRemoved` runs the same logic against the current value. -/
def checkAddedAttr (entity : String) (a v : String) : Except PyErr Unit :=
  match alookup EDXMLEntityAttributes entity with
  | none => .error .keyError
  | some table =>
    match alookup table a with
    | none => .error .keyError
    | some spec =>
      if spec.mandatory then .error .edxmlError
      else
        match spec.dflt with
        | some d => if v ≠ d then .error .edxmlError else .ok ()
        | none => .error .edxmlError

def CheckEdxmlEntityConsistency (entity : String) (cur upd : AttrMap) :
    Except PyErr Unit := do
  -- AttribsRetained: values must agree
  (upd.foldlM (fun _ kv =>
      match alookup cur kv.1 with
      | none => .ok ()
      | some cv =>
        if (alookup upd kv.1).getD "" ≠ cv then .error .edxmlError else .ok ())
    ())
  -- AttribsAdded
  (upd.foldlM (fun _ kv =>
      match alookup cur kv.1 with
      | some _ => .ok ()
      | none => checkAddedAttr entity kv.1 ((alookup upd kv.1).getD ""))
    ())
  -- AttribsRemoved
  (cur.foldlM (fun _ kv =>
      match alookup upd kv.1 with
      | some _ => .ok ()
      | none => checkAddedAttr entity kv.1 ((alookup cur kv.1).getD ""))
    ())

/-! ## AddNewEventType / SetNewEventTypeParent / AddNewProperty
(lines 476-544) -/

def AddNewEventType (defs : EDXMLDefinitions) (etn : String) (attrs : AttrMap) :
    Except PyErr EDXMLDefinitions := do
  let defs := { defs with
    EventTypeNames := defs.EventTypeNames ++ [etn],
    PropertyNames := aset defs.PropertyNames etn [],
    EntityProperties := aset defs.EntityProperties etn [] }
  ValidateEdxmlEntityAttributes "eventtype" attrs
  let defs := { defs with
    EventTypes := aset defs.EventTypes etn
      { attributes := attrs, properties := [], uniqueProperties := [],
        mandatoryProperties := [], singletonProperties := [],
        parentmapping := [], relations := [], relatedProperties := [],
        unique := false, parent := none } }
  match alookup attrs "classlist" with
  | none => .error .keyError
  | some cl =>
    let classes := (splitCh ',' cl.data).map (fun cs => String.mk cs)
    .ok { defs with
      EventTypeClasses := classes.foldl
        (fun m c => aset m c (ssInsert etn ((alookup m c).getD []))) defs.EventTypeClasses }

def SetNewEventTypeParent (defs : EDXMLDefinitions) (etn : String) (attrs : AttrMap) :
    Except PyErr EDXMLDefinitions := do
  let rec0 ← match alookup defs.EventTypes etn with
    | none => .error .keyError
    | some r => .ok r
  let rec0 := { rec0 with parent := some attrs }
  -- `except KeyError, ValueError` in Python 2 catches KeyError only (and
  -- binds it to the name ValueError): a missing 'propertymap' becomes
  -- self.Error, a malformed mapping raises ValueError uncaught.
  match alookup attrs "propertymap" with
  | none => .error .edxmlError
  | some pm => do
    let mapping ← (splitCh ',' pm.data).foldlM
      (fun m entry =>
        match splitCh ':' entry with
        | [c, p] => .ok (aset m (String.mk c) (String.mk p))
        | _ => .error .valueError)
      rec0.parentmapping
    .ok { defs with EventTypes := aset defs.EventTypes etn { rec0 with parentmapping := mapping } }

def attrIsTrue (attrs : AttrMap) (k : String) : Bool :=
  match alookup attrs k with
  | none => false
  | some v => lowerStr v = "true"

def AddNewProperty (defs : EDXMLDefinitions) (etn pname : String) (attrs : AttrMap) :
    Except PyErr EDXMLDefinitions := do
  let pn ← match alookup defs.PropertyNames etn with
    | none => .error .keyError
    | some l => .ok l
  let defs := { defs with PropertyNames := aset defs.PropertyNames etn (pn ++ [pname]) }
  ValidateEdxmlEntityAttributes "property" attrs
  let ot ← match alookup attrs "object-type" with
    | none => .error .keyError
    | some v => .ok v
  let defs := { defs with
    RequiredObjectTypes := ssInsert ot defs.RequiredObjectTypes,
    ObjectTypeEventTypes := aset defs.ObjectTypeEventTypes ot
      (ssInsert etn ((alookup defs.ObjectTypeEventTypes ot).getD [])) }
  let rec0 ← match alookup defs.EventTypes etn with
    | none => .error .keyError
    | some r => .ok r
  let rec0 :=
    if attrIsTrue attrs "unique" then
      { rec0 with unique := true, uniqueProperties := ssInsert pname rec0.uniqueProperties }
    else rec0
  -- the parent-map singleton rule is nested under `if 'merge' in Attributes`
  let rec0 :=
    match alookup attrs "merge" with
    | none => rec0
    | some m =>
      let rec0 :=
        if m = "match" || m = "min" || m = "max" then
          { rec0 with mandatoryProperties := ssInsert pname rec0.mandatoryProperties }
        else rec0
      let rec0 :=
        if m = "match" || m = "replace" || m = "min" || m = "max" then
          { rec0 with singletonProperties := ssInsert pname rec0.singletonProperties }
        else rec0
      if (alookup rec0.parentmapping pname).isSome then
        { rec0 with singletonProperties := ssInsert pname rec0.singletonProperties }
      else rec0
  let defs ←
    if attrIsTrue attrs "defines-entity" then
      match alookup defs.EntityProperties etn with
      | none => .error .keyError
      | some s => .ok { defs with
          EntityProperties := aset defs.EntityProperties etn (ssInsert pname s) }
    else .ok defs
  let rec0 := { rec0 with
    properties := aset rec0.properties pname
      (aupdate [("unique", "false"), ("defines-entity", "false")] attrs) }
  .ok { defs with EventTypes := aset defs.EventTypes etn rec0 }

/-! ## ComputeStickyHash / ComputeStickyHashV3 (lines 975-1064)

`ObjectStrings` is a Python set of strings, modelled canonically sorted, so
the final `sorted(ObjectStrings)` is the identity on the model. -/

/-- The body of the object loop shared by both hash versions: skip
non-unique properties of unique event types, skip floating point objects,
otherwise normalize and insert `property + ':' + value` into the set. -/
def hashStep (defs : EDXMLDefinitions) (etn : String) (acc : List String)
    (pv : String × String) : Except PyErr (List String) := do
  let u ← EventTypeIsUnique defs etn
  let skip ←
    if u then do
      let pu ← PropertyIsUnique defs etn pv.1
      pure (pu == false)
    else pure false
  if skip then .ok acc
  else do
    let ot ← GetPropertyObjectType defs etn pv.1
    let dtStr ← GetObjectTypeDataType defs ot
    let dt := (splitCh ':' dtStr.data).map (fun cs => String.mk cs)
    if dt.head? = some "number" then
      match dt.get? 1 with
      | none => .error .indexError
      | some d1 =>
        if d1 = "float" || d1 = "double" then .ok acc
        else do
          let nv ← NormalizeObject pv.2 dt
          .ok (ssInsert (pv.1 ++ ":" ++ nv) acc)
    else do
      let nv ← NormalizeObject pv.2 dt
      .ok (ssInsert (pv.1 ++ ":" ++ nv) acc)

def stickyHashObjectStrings (defs : EDXMLDefinitions) (etn : String)
    (objs : List (String × String)) : Except PyErr (List String) :=
  objs.foldlM (hashStep defs etn) []

def ComputeStickyHash (defs : EDXMLDefinitions) (etn : String)
    (objs : List (String × String)) (content : String) : Except PyErr String := do
  let ss ← stickyHashObjectStrings defs etn objs
  let u ← EventTypeIsUnique defs etn
  if u then
    .ok (sha1HexUtf8 (etn ++ "\n" ++ String.intercalate "\n" ss))
  else
    .ok (sha1HexUtf8 (etn ++ "\n" ++ String.intercalate "\n" ss ++ "\n" ++ content))

def ComputeStickyHashV3 (defs : EDXMLDefinitions) (etn srcUrl : String)
    (objs : List (String × String)) (content : String) : Except PyErr String := do
  let ss ← stickyHashObjectStrings defs etn objs
  let u ← EventTypeIsUnique defs etn
  if u then
    .ok (sha1HexUtf8 (srcUrl ++ "\n" ++ etn ++ "\n" ++ String.intercalate "\n" ss))
  else
    .ok (sha1HexUtf8 (srcUrl ++ "\n" ++ etn ++ "\n" ++ String.intercalate "\n" ss ++
         "\n" ++ content))

/-! ## Python 2 `str()` on numbers (used by the min/max merge strategies) -/

def decLt (a b : PyDec) : Bool :=
  let s := Nat.max a.scale b.scale
  decide (a.scaledVal s < b.scaledVal s)

def decGt (a b : PyDec) : Bool := decLt b a

/-- First minimal element in list order (Python `min` keeps the first of
equal elements in iteration order). -/
def firstMinBy {α : Type} (lt : α → α → Bool) (l : List α) : Option α :=
  l.foldl
    (fun best x =>
      match best with
      | none => some x
      | some b => if lt x b then some x else some b)
    none

def firstMaxBy {α : Type} (lt : α → α → Bool) (l : List α) : Option α :=
  l.foldl
    (fun best x =>
      match best with
      | none => some x
      | some b => if lt b x then some x else some b)
    none

/-- Keep the first of each `eqv`-class (a Python set of equal-comparing
number objects keeps the first inserted). -/
def dedupByKeepFirst {α : Type} (eqv : α → α → Bool) (l : List α) : List α :=
  l.foldl (fun acc x => if acc.any (fun y => eqv y x) then acc else acc ++ [x]) []

def roundHalfEvenDiv (n d : Nat) : Nat :=
  let q := n / d
  let r := n % d
  if 2 * r > d then q + 1
  else if 2 * r < d then q
  else if q % 2 = 0 then q else q + 1

/-- Python 2 `str(float)`: 12 significant digits (`%.12g`) with a trailing
`.0` kept on integral values.  Modelled over the exact decimal value; this
matches CPython for values within double precision. -/
def py2FloatStr (d : PyDec) : String :=
  if d.mag = 0 then (if d.neg then "-0.0" else "0.0")
  else
    let len := (natDigits d.mag).length
    let (m12, dropped) :=
      if len ≤ 12 then (d.mag, 0)
      else (roundHalfEvenDiv d.mag (10 ^ (len - 12)), len - 12)
    let exp10 : Int := (dropped : Int) - (d.scale : Int)
    let e : Int := ((natDigits m12).length - 1 : Nat) + exp10
    let sign := if d.neg then "-" else ""
    if -4 ≤ e && e < 12 then
      if 0 ≤ exp10 then
        sign ++ ⟨natDigits m12 ++ List.replicate exp10.toNat '0'⟩ ++ ".0"
      else
        let k := (-exp10).toNat
        let ip := m12 / 10 ^ k
        let frac := (zeroPad k (m12 % 10 ^ k)).reverse.dropWhile (fun c => c = '0') |>.reverse
        if frac = [] then sign ++ ⟨natDigits ip⟩ ++ ".0"
        else sign ++ ⟨natDigits ip⟩ ++ "." ++ ⟨frac⟩
    else
      let md := (natDigits m12).reverse.dropWhile (fun c => c = '0') |>.reverse
      let mant :=
        match md with
        | [] => "0"
        | c :: [] => ⟨[c]⟩
        | c :: rest => ⟨[c]⟩ ++ "." ++ ⟨rest⟩
      let ea := (if e < 0 then -e else e).toNat
      let eDigits := if (natDigits ea).length < 2 then ⟨'0' :: natDigits ea⟩ else (⟨natDigits ea⟩ : String)
      sign ++ mant ++ "e" ++ (if e < 0 then "-" else "+") ++ eDigits

/-! ## MergeEvents (lines 871-973) -/

/-- The body of the strategy loop (`for PropertyName in Source`): unique
properties are left alone; `min`/`max` act only on `number`/`timestamp`
data types — over the *string set* for timestamps, over parsed values for
numbers — `add` unions, `replace` overwrites, anything else is a no-op. -/
def mergeStep (defs : EDXMLDefinitions) (etn : String) (rec0 : EventTypeRec)
    (source : List (String × List String)) (target : List (String × List String))
    (p : String) : Except PyErr (List (String × List String)) :=
  if ssMem p rec0.uniqueProperties then .ok target
  else
    match alookup rec0.properties p with
    | none => .error .keyError
    | some pattrs =>
      match alookup pattrs "merge" with
      | none => .error .keyError
      | some strat =>
        let sv := (alookup source p).getD []
        let tv := (alookup target p).getD []
        if strat = "min" || strat = "max" then do
          let ot ← GetPropertyObjectType defs etn p
          let dtStr ← GetObjectTypeDataType defs ot
          let dt := (splitCh ':' dtStr.data).map (fun cs => String.mk cs)
          if dt.head? = some "number" || dt.head? = some "timestamp" then
            if dt.head? = some "timestamp" then
              -- Values = Source[p] | Target[p] : a set of *strings*;
              -- min()/max() on it is the lexicographic extremum
              let vals := ssUnion sv tv
              let chosen := if strat = "min" then vals.head? else vals.getLast?
              match chosen with
              | none => .error .valueError
              | some v => .ok (aset target p [v])
            else
              match dt.get? 1 with
              | none => .error .indexError
              | some d1 =>
                if d1 = "float" || d1 = "double" then do
                  let vals ← (sv ++ tv).mapM (fun v =>
                    match parsePyDec v with
                    | none => (.error .valueError : Except PyErr PyDec)
                    | some d => .ok d)
                  let vals := dedupByKeepFirst decEqv vals
                  let chosen := if strat = "min" then firstMinBy decLt vals
                                else firstMaxBy decLt vals
                  match chosen with
                  | none => .error .valueError
                  | some v => .ok (aset target p [py2FloatStr v])
                else if d1 = "decimal" then do
                  let vals ← (sv ++ tv).mapM (fun v =>
                    match parsePyDec v with
                    | none => (.error .valueError : Except PyErr PyDec)
                    | some d => .ok d)
                  let vals := dedupByKeepFirst decEqv vals
                  let chosen := if strat = "min" then firstMinBy decLt vals
                                else firstMaxBy decLt vals
                  match chosen with
                  | none => .error .valueError
                  | some v => .ok (aset target p [pyDecStr v])
                else do
                  let vals ← (sv ++ tv).mapM (fun v =>
                    match parsePyInt v with
                    | none => (.error .valueError : Except PyErr Int)
                    | some i => .ok i)
                  let vals := dedupByKeepFirst (fun a b => a = b) vals
                  let chosen := if strat = "min" then firstMinBy (fun a b => decide (a < b)) vals
                                else firstMaxBy (fun a b => decide (a < b)) vals
                  match chosen with
                  | none => .error .valueError
                  | some v => .ok (aset target p [pyIntStr v])
          else .ok target
        else if strat = "add" then .ok (aset target p (ssUnion sv tv))
        else if strat = "replace" then .ok (aset target p sv)
        else .ok target

/-- The strategy loop plus the dead "remove any objects due to replace
strategy" loop: the final per-property target sets of the merge. -/
def mergeTargets (defs : EDXMLDefinitions) (etn : String) (rec0 : EventTypeRec)
    (props : List String)
    (eventObjectsA eventObjectsB : List (String × List String)) :
    Except PyErr (List (String × List String)) := do
  let target0 := props.map (fun p => (p, ssOfList ((alookup eventObjectsA p).getD [])))
  let source := props.map (fun p => (p, ssOfList ((alookup eventObjectsB p).getD [])))
  -- for PropertyName in Source: Source holds a key for every property
  let target1 ← props.foldlM (mergeStep defs etn rec0 source) target0
  -- "Remove any objects due to replace strategy": every property is a key
  -- of Source, so this loop never fires (replace-with-absent has already
  -- emptied the target above)
  let removal := props.filter
    (fun q => (alookup source q).isNone && (alookup target1 q).isSome)
  removal.foldlM
    (fun t q =>
      match alookup rec0.properties q with
      | none => .error .keyError
      | some pattrs =>
        match alookup pattrs "merge" with
        | none => .error .keyError
        | some strat => .ok (if strat = "replace" then aset t q [] else t))
    target1

/-- The "determine if anything changed" loop: some property's final target
set differs from its original set in event A (the first disjunct mirrors the
dead `not PropertyName in Original` test of the source). -/
def mergeChanged (props : List String)
    (eventObjectsA target2 : List (String × List String)) : Bool :=
  let original := props.map (fun p => (p, ssOfList ((alookup eventObjectsA p).getD [])))
  props.any (fun p =>
    ((alookup original p).isNone && ((alookup target2 p).getD []).length > 0) ||
    (alookup target2 p).getD [] ≠ (alookup original p).getD [])

def MergeEvents (defs : EDXMLDefinitions) (etn : String)
    (eventObjectsA eventObjectsB : List (String × List String)) :
    Except PyErr (List (String × List String) × List (String × List String) × Bool) := do
  let rec0 ← match alookup defs.EventTypes etn with
    | none => .error .keyError
    | some r => .ok r
  if rec0.unique = false then .error .unsupportedOperation
  else do
    let props ← GetEventTypeProperties defs etn
    let target2 ← mergeTargets defs etn rec0 props eventObjectsA eventObjectsB
    if mergeChanged props eventObjectsA target2 then
      .ok (target2.map (fun kv => (kv.1, kv.2)), eventObjectsB, true)
    else
      .ok (eventObjectsA, eventObjectsB, false)

/-! ## Spec-side definitions (EDXML specification §4.3 step 1)

These follow the specification's wording of the hash preimage and are
compared with the code-side construction in the refinement theorems. -/

/-- The split data type of the object type of a property, when all schema
references resolve. -/
def propSplitDataType (defs : EDXMLDefinitions) (etn p : String) :
    Option (List String) :=
  match alookup defs.EventTypes etn with
  | none => none
  | some r =>
    match alookup r.properties p with
    | none => none
    | some attrs =>
      match alookup attrs "object-type" with
      | none => none
      | some ot =>
        match alookup defs.ObjectTypes ot with
        | none => none
        | some oattrs =>
          match alookup oattrs "data-type" with
          | none => none
          | some dt => some ((splitCh ':' dt.data).map (fun cs => String.mk cs))

/-- "If the event type is unique and the property is not in
unique-properties, skip." -/
def uniquelySkipped (defs : EDXMLDefinitions) (etn p : String) : Bool :=
  match alookup defs.EventTypes etn with
  | none => false
  | some r => r.unique && !(ssMem p r.uniqueProperties)

/-- "If the property's object-type data type is `number:float` or
`number:double`, skip." -/
def floatSkipped (defs : EDXMLDefinitions) (etn p : String) : Bool :=
  match propSplitDataType defs etn p with
  | none => false
  | some dt =>
    decide (dt.head? = some "number") &&
    (decide (dt.get? 1 = some "float") || decide (dt.get? 1 = some "double"))

/-- Spec §4.3 step 1: the contribution of one (property, value) pair to the
set `S` — `none` when the pair is skipped, otherwise the string
`property + ':' + normalized_value`. -/
def specContrib (defs : EDXMLDefinitions) (etn : String) (pv : String × String) :
    Option String :=
  if uniquelySkipped defs etn pv.1 then none
  else if floatSkipped defs etn pv.1 then none
  else
    match propSplitDataType defs etn pv.1 with
    | none => none
    | some dt =>
      match NormalizeObject pv.2 dt with
      | .ok nv => some (pv.1 ++ ":" ++ nv)
      | .error _ => none

/-- The specification's set `S`: the lexicographically sorted set of
contribution strings of the event's (property, value) pairs. -/
def specStickySet (defs : EDXMLDefinitions) (etn : String)
    (objs : List (String × String)) : List String :=
  sortStrings (objs.filterMap (specContrib defs etn))

/-! ## Proof-side condensation of the hash loop body -/

/-- What `hashStep` does to the accumulated set, independent of the
accumulator: fail, skip the pair, or insert one string. -/
inductive HashClass where
  | err (e : PyErr)
  | skip
  | add (s : String)
  deriving Repr, DecidableEq

def hashClass (defs : EDXMLDefinitions) (etn : String) (pv : String × String) :
    HashClass :=
  match alookup defs.EventTypes etn with
  | none => .err .keyError
  | some r =>
    if r.unique && !(ssMem pv.1 r.uniqueProperties) then .skip
    else
      match GetPropertyObjectType defs etn pv.1 with
      | .error e => .err e
      | .ok ot =>
        match GetObjectTypeDataType defs ot with
        | .error e => .err e
        | .ok dtStr =>
          let dt := (splitCh ':' dtStr.data).map (fun cs => String.mk cs)
          if dt.head? = some "number" then
            match dt.get? 1 with
            | none => .err .indexError
            | some d1 =>
              if d1 = "float" || d1 = "double" then .skip
              else
                match NormalizeObject pv.2 dt with
                | .error e => .err e
                | .ok nv => .add (pv.1 ++ ":" ++ nv)
          else
            match NormalizeObject pv.2 dt with
            | .error e => .err e
            | .ok nv => .add (pv.1 ++ ":" ++ nv)

def hashClassOk (c : HashClass) : Bool :=
  match c with
  | .err _ => false
  | _ => true

/-! ## Decidable equality for `Except` results -/

instance {ε α : Type} [DecidableEq ε] [DecidableEq α] : DecidableEq (Except ε α) :=
  fun a b =>
    match a, b with
    | .ok x, .ok y => if h : x = y then .isTrue (by rw [h]) else .isFalse (by simp [h])
    | .error x, .error y => if h : x = y then .isTrue (by rw [h]) else .isFalse (by simp [h])
    | .ok _, .error _ => .isFalse (by simp)
    | .error _, .ok _ => .isFalse (by simp)

/-! ## Concrete registries used by witnesses and counterexamples -/

/-- The spec's S4 merge scenario: event type `et` with properties
`a(merge=add)`, `m(merge=min, number:int)`, `r(merge=replace)`, `u(unique)`. -/
def s4Rec : EventTypeRec :=
  { attributes := [],
    properties :=
      [("a", [("merge", "add"), ("object-type", "str-ot")]),
       ("m", [("merge", "min"), ("object-type", "int-ot")]),
       ("r", [("merge", "replace"), ("object-type", "str-ot")]),
       ("u", [("merge", "match"), ("object-type", "str-ot"), ("unique", "true")])],
    uniqueProperties := ["u"], mandatoryProperties := ["m", "u"],
    singletonProperties := ["m", "r", "u"], parentmapping := [], relations := [],
    relatedProperties := [], unique := true, parent := none }

def s4Defs : EDXMLDefinitions :=
  { EventTypes := [("et", s4Rec)],
    ObjectTypes :=
      [("str-ot", [("data-type", "string:0:cs")]),
       ("int-ot", [("data-type", "number:int")]),
       ("ts-ot", [("data-type", "timestamp")])],
    PropertyNames := [("et", ["a", "m", "r", "u"])],
    EventTypeNames := ["et"], RequiredObjectTypes := [],
    ObjectTypeEventTypes := [], EntityProperties := [], EventTypeClasses := [] }

/-- A unique event type `e` with a unique property `u` and a timestamp
property `t` merged with strategy `min`. -/
def tsMinRec : EventTypeRec :=
  { attributes := [],
    properties :=
      [("u", [("merge", "match"), ("object-type", "str-ot")]),
       ("t", [("merge", "min"), ("object-type", "ts-ot")])],
    uniqueProperties := ["u"], mandatoryProperties := [], singletonProperties := [],
    parentmapping := [], relations := [], relatedProperties := [],
    unique := true, parent := none }

def tsMinDefs : EDXMLDefinitions :=
  { EventTypes := [("e", tsMinRec)],
    ObjectTypes :=
      [("str-ot", [("data-type", "string:0:cs")]),
       ("ts-ot", [("data-type", "timestamp")])],
    PropertyNames := [("e", ["u", "t"])],
    EventTypeNames := ["e"], RequiredObjectTypes := [],
    ObjectTypeEventTypes := [], EntityProperties := [], EventTypeClasses := [] }

/-! ## Proof-side condensation of AddNewProperty's record update, and the
history conditions of the derived-set invariants -/

/-- The effect of `AddNewProperty` on the stored event type record,
mirroring lines 528-544 of the source. -/
def addPropDerived (r : EventTypeRec) (pname : String) (attrs : AttrMap) :
    EventTypeRec :=
  let r1 :=
    if attrIsTrue attrs "unique" then
      { r with unique := true, uniqueProperties := ssInsert pname r.uniqueProperties }
    else r
  let r2 :=
    match alookup attrs "merge" with
    | none => r1
    | some m =>
      let ra :=
        if m = "match" || m = "min" || m = "max" then
          { r1 with mandatoryProperties := ssInsert pname r1.mandatoryProperties }
        else r1
      let rb :=
        if m = "match" || m = "replace" || m = "min" || m = "max" then
          { ra with singletonProperties := ssInsert pname ra.singletonProperties }
        else ra
      if (alookup rb.parentmapping pname).isSome then
        { rb with singletonProperties := ssInsert pname rb.singletonProperties }
      else rb
  { r2 with
    properties := aset r2.properties pname
      (aupdate [("unique", "false"), ("defines-entity", "false")] attrs) }

/-- The code's mandatory condition: a merge attribute is present with value
match, min or max. -/
def mandatoryMergeCond (attrs : AttrMap) : Bool :=
  match alookup attrs "merge" with
  | none => false
  | some m => m = "match" || m = "min" || m = "max"

/-- The code's singleton condition (the amended claim): a merge attribute is
present, and its value is match, replace, min or max, or the property is a
key of the parent map. -/
def singletonMergeCond (pm : List (String × String)) (attrs : AttrMap)
    (pname : String) : Bool :=
  match alookup attrs "merge" with
  | none => false
  | some m =>
    (m = "match" || m = "replace" || m = "min" || m = "max") ||
    (alookup pm pname).isSome

/-- The claim's original singleton condition: the merge strategy (defaulting
to drop) is match, replace, min or max, or the property is in the parent
map — with no requirement that a merge attribute be present. -/
def claimSingletonCond (pm : List (String × String)) (attrs : AttrMap)
    (pname : String) : Bool :=
  (let m := (alookup attrs "merge").getD "drop"
   m = "match" || m = "replace" || m = "min" || m = "max") ||
  (alookup pm pname).isSome

/-- An empty registry. -/
def emptyDefs : EDXMLDefinitions :=
  { EventTypes := [], ObjectTypes := [], PropertyNames := [], EventTypeNames := [],
    RequiredObjectTypes := [], ObjectTypeEventTypes := [], EntityProperties := [],
    EventTypeClasses := [] }

/-- The C7 counterexample trace: a fresh event type with a parent property
map `p -> q`, then a property `p` registered without a merge attribute. -/
def c7PropAttrs : AttrMap := [("name", "p"), ("description", "d"), ("object-type", "ot")]

def c7Trace : Except PyErr EDXMLDefinitions := do
  let d ← AddNewEventType emptyDefs "et"
    [("name", "et"), ("description", "d"), ("classlist", "c"),
     ("reporter-short", "s"), ("reporter-long", "l")]
  let d ← SetNewEventTypeParent d "et" [("eventtype", "pet"), ("propertymap", "p:q")]
  AddNewProperty d "et" "p" c7PropAttrs

/-- Extract the success value of an `Except`, with a default. -/
def exOk {ε α : Type} (d : α) : Except ε α → α
  | .ok a => a
  | .error _ => d

/-- Concrete material for exercising the derived-set invariants: a fresh
event type `e` with parent map `p -> q`, then two property registrations,
one unique with merge `match`, one with neither attribute. -/
def c7wRec : EventTypeRec :=
  { attributes := [], properties := [], uniqueProperties := [],
    mandatoryProperties := [], singletonProperties := [],
    parentmapping := [("p", "q")], relations := [], relatedProperties := [],
    unique := false, parent := none }

def c7wDefs : EDXMLDefinitions :=
  { EventTypes := [("e", c7wRec)], ObjectTypes := [],
    PropertyNames := [("e", [])], EventTypeNames := ["e"],
    RequiredObjectTypes := [], ObjectTypeEventTypes := [],
    EntityProperties := [], EventTypeClasses := [] }

def c7wAdds : List (String × AttrMap) :=
  [("u", [("name", "u"), ("description", "d"), ("object-type", "ot"),
          ("unique", "true"), ("merge", "match")]),
   ("p", [("name", "p"), ("description", "d"), ("object-type", "ot")])]

def c7wFold : Except PyErr EDXMLDefinitions :=
  List.foldlM (fun d pa => AddNewProperty d "e" pa.1 pa.2) c7wDefs c7wAdds

def c7wDefs' : EDXMLDefinitions := exOk emptyDefs c7wFold

/-- An event type record with everything empty. -/
def emptyRec : EventTypeRec :=
  { attributes := [], properties := [], uniqueProperties := [],
    mandatoryProperties := [], singletonProperties := [],
    parentmapping := [], relations := [], relatedProperties := [],
    unique := false, parent := none }

/-- The registry produced by the C7 counterexample trace, and the record it
stores for event type `et`. -/
def c7TraceDefs : EDXMLDefinitions := exOk emptyDefs c7Trace

def c7TraceRec : EventTypeRec :=
  (alookup c7TraceDefs.EventTypes "et").getD emptyRec

/-- The object maps of the S4 scenario and the shared identical-merge map. -/
def s4ObjA : List (String × List String) :=
  [("a", ["x"]), ("m", ["5"]), ("r", ["old"]), ("u", ["k"])]

def s4ObjB : List (String × List String) :=
  [("a", ["y"]), ("m", ["3"]), ("r", ["new"]), ("u", ["k"])]

def s4Target : List (String × List String) :=
  [("a", ["x", "y"]), ("m", ["3"]), ("r", ["new"]), ("u", ["k"])]

/-- Object list exercising the sticky hash: the unique property
contributes, the non-unique properties of the unique event type are
skipped. -/
def c1wObjs : List (String × String) := [("u", "k"), ("a", "x"), ("m", "7")]

/-- A non-unique event type with a string property and a float property,
for the hash-invariance scenario. -/
def c2wRec : EventTypeRec :=
  { attributes := [],
    properties :=
      [("p", [("object-type", "str-ot")]),
       ("f", [("object-type", "flt-ot")])],
    uniqueProperties := [], mandatoryProperties := [], singletonProperties := [],
    parentmapping := [], relations := [], relatedProperties := [],
    unique := false, parent := none }

def c2wDefs : EDXMLDefinitions :=
  { EventTypes := [("ev", c2wRec)],
    ObjectTypes :=
      [("str-ot", [("data-type", "string:0:cs")]),
       ("flt-ot", [("data-type", "number:float")])],
    PropertyNames := [("ev", ["p", "f"])],
    EventTypeNames := ["ev"], RequiredObjectTypes := [],
    ObjectTypeEventTypes := [], EntityProperties := [], EventTypeClasses := [] }

/-- Two object lists that differ only in order, in a duplicated pair, and
in the value of the float property. -/
def c2wObjs : List (String × String) := [("p", "x"), ("f", "1.5"), ("p", "y")]

def c2wObjsR : List (String × String) :=
  [("p", "y"), ("p", "x"), ("p", "x"), ("f", "2.5")]

/-! # Theorems -/

/-! ## The lexicographic order -/

theorem charListLt_irrefl (l : List Char) : charListLt l l = false := by
  induction l with
  | nil => rfl
  | cons a as ih => simp [charListLt, lt_irrefl, ih]

theorem charListLt_asymm : ∀ {a b : List Char},
    charListLt a b = true → charListLt b a = false
  | [], [] => by simp [charListLt]
  | [], _ :: _ => by intro; rfl
  | _ :: _, [] => by intro h; simp [charListLt] at h
  | x :: xs, y :: ys => by
    intro h
    simp only [charListLt] at h ⊢
    rcases lt_trichotomy x y with hxy | hxy | hxy
    · simp [hxy, not_lt_of_gt hxy]
    · subst hxy
      simp only [lt_irrefl, if_false] at h ⊢
      exact charListLt_asymm h
    · simp [hxy, not_lt_of_gt hxy] at h

theorem charListLt_conn : ∀ {a b : List Char},
    charListLt a b = false → charListLt b a = false → a = b
  | [], [] => by intro _ _; rfl
  | [], _ :: _ => by intro h _; simp [charListLt] at h
  | _ :: _, [] => by intro _ h; simp [charListLt] at h
  | x :: xs, y :: ys => by
    intro h1 h2
    simp only [charListLt] at h1 h2
    rcases lt_trichotomy x y with hxy | hxy | hxy
    · simp [hxy] at h1
    · subst hxy
      simp only [lt_irrefl, if_false] at h1 h2
      rw [charListLt_conn h1 h2]
    · simp [hxy] at h2

theorem charListLt_trans : ∀ {a b c : List Char},
    charListLt a b = true → charListLt b c = true → charListLt a c = true
  | [], [], _ :: _ => by intro _ _; rfl
  | [], _ :: _, _ :: _ => by intro _ _; rfl
  | _, _ :: _, [] => by intro _ h; simp [charListLt] at h
  | _, [], [] => by intro _ h; simp [charListLt] at h
  | _ :: _, [], _ => by intro h _; simp [charListLt] at h
  | x :: xs, y :: ys, z :: zs => by
    intro h1 h2
    simp only [charListLt] at h1 h2 ⊢
    rcases lt_trichotomy x y with hxy | hxy | hxy
    · rcases lt_trichotomy y z with hyz | hyz | hyz
      · simp [lt_trans hxy hyz]
      · subst hyz; simp [hxy]
      · simp [hyz, not_lt_of_gt hyz] at h2
    · subst hxy
      rcases lt_trichotomy x z with hyz | hyz | hyz
      · simp [hyz]
      · subst hyz
        simp only [lt_irrefl, if_false] at h1 h2 ⊢
        exact charListLt_trans h1 h2
      · simp [hyz, not_lt_of_gt hyz] at h2
    · simp [hxy, not_lt_of_gt hxy] at h1

theorem strLt_irrefl (s : String) : strLt s s = false := charListLt_irrefl _

theorem strLt_asymm {a b : String} (h : strLt a b = true) : strLt b a = false :=
  charListLt_asymm h

theorem strLt_conn {a b : String} (h1 : strLt a b = false) (h2 : strLt b a = false) :
    a = b := by
  cases a; cases b
  exact congrArg String.mk (charListLt_conn h1 h2)

theorem strLt_trans {a b c : String} (h1 : strLt a b = true) (h2 : strLt b c = true) :
    strLt a c = true := charListLt_trans h1 h2

/-! ## Sorted string sets -/

/-- The canonical-set invariant: strictly sorted (hence duplicate-free). -/
def SortedSS (l : List String) : Prop := l.Pairwise (fun a b => strLt a b = true)

theorem mem_ssInsert {y s : String} : ∀ {l : List String},
    y ∈ ssInsert s l ↔ y = s ∨ y ∈ l
  | [] => by simp [ssInsert]
  | x :: xs => by
    simp only [ssInsert]
    split
    · simp [or_comm, or_assoc, or_left_comm]
    · split
      · rename_i h1 h2
        simp only [List.mem_cons, mem_ssInsert]
        tauto
      · rename_i h1 h2
        have hx : s = x := strLt_conn (by simpa using h1) (by simpa using h2)
        subst hx
        simp only [List.mem_cons]
        tauto

theorem ssInsert_sorted {s : String} : ∀ {l : List String},
    SortedSS l → SortedSS (ssInsert s l)
  | [] => by intro _; simp [ssInsert, SortedSS]
  | x :: xs => by
    intro h
    simp only [SortedSS, List.pairwise_cons] at h
    obtain ⟨hx, hxs⟩ := h
    simp only [ssInsert]
    split
    · rename_i h1
      refine List.pairwise_cons.mpr ?_
      constructor
      · intro y hy
        rcases List.mem_cons.mp hy with hy | hy
        · subst hy; exact h1
        · exact strLt_trans h1 (hx y hy)
      · exact List.pairwise_cons.mpr ⟨hx, hxs⟩
    · split
      · rename_i h1 h2
        refine List.pairwise_cons.mpr ?_
        constructor
        · intro y hy
          rcases mem_ssInsert.mp hy with hy | hy
          · subst hy; exact h2
          · exact hx y hy
        · exact ssInsert_sorted hxs
      · exact List.pairwise_cons.mpr ⟨hx, hxs⟩

theorem sortedSS_ext : ∀ {l1 l2 : List String},
    SortedSS l1 → SortedSS l2 → (∀ x, x ∈ l1 ↔ x ∈ l2) → l1 = l2
  | [], [] => by intro _ _ _; rfl
  | [], y :: ys => by
    intro _ _ hm
    exact absurd ((hm y).mpr (List.mem_cons_self y ys)) (List.not_mem_nil y)
  | x :: xs, [] => by
    intro _ _ hm
    exact absurd ((hm x).mp (List.mem_cons_self x xs)) (List.not_mem_nil x)
  | x :: xs, y :: ys => by
    intro h1 h2 hm
    simp only [SortedSS, List.pairwise_cons] at h1 h2
    obtain ⟨hx, hxs⟩ := h1
    obtain ⟨hy, hys⟩ := h2
    have hxy : x = y := by
      rcases List.mem_cons.mp ((hm x).mp (List.mem_cons_self x xs)) with h | h
      · exact h
      · rcases List.mem_cons.mp ((hm y).mpr (List.mem_cons_self y ys)) with h' | h'
        · exact h'.symm
        · have := strLt_asymm (hy x h)
          rw [hx y h'] at this
          cases this
    subst hxy
    have : xs = ys := by
      apply sortedSS_ext hxs hys
      intro z
      constructor
      · intro hz
        rcases List.mem_cons.mp ((hm z).mp (List.mem_cons_of_mem x hz)) with h | h
        · subst h
          have := hx z hz
          rw [strLt_irrefl] at this
          cases this
        · exact h
      · intro hz
        rcases List.mem_cons.mp ((hm z).mpr (List.mem_cons_of_mem x hz)) with h | h
        · subst h
          have := hy z hz
          rw [strLt_irrefl] at this
          cases this
        · exact h
    rw [this]

theorem ssFoldl_mem {y : String} (l : List String) : ∀ (acc : List String),
    (y ∈ l.foldl (fun acc s => ssInsert s acc) acc ↔ y ∈ acc ∨ y ∈ l) := by
  induction l with
  | nil => intro acc; simp
  | cons x xs ih =>
    intro acc
    simp only [List.foldl_cons]
    rw [ih]
    simp only [mem_ssInsert, List.mem_cons]
    tauto

theorem ssFoldl_sorted (l : List String) : ∀ (acc : List String),
    SortedSS acc → SortedSS (l.foldl (fun acc s => ssInsert s acc) acc) := by
  induction l with
  | nil => exact fun _ h => h
  | cons x xs ih =>
    intro acc h
    simp only [List.foldl_cons]
    exact ih _ (ssInsert_sorted h)

theorem mem_ssOfList {y : String} {l : List String} : y ∈ ssOfList l ↔ y ∈ l := by
  rw [ssOfList, ssFoldl_mem]
  simp

theorem ssOfList_sorted {l : List String} : SortedSS (ssOfList l) :=
  ssFoldl_sorted l [] (by simp [SortedSS])

theorem mem_ssUnion {y : String} {a b : List String} :
    y ∈ ssUnion a b ↔ y ∈ a ∨ y ∈ b := by
  rw [ssUnion, ssFoldl_mem]

theorem ssUnion_sorted {a b : List String} (h : SortedSS a) : SortedSS (ssUnion a b) :=
  ssFoldl_sorted b a h

theorem mem_sortStrings {y : String} : ∀ {l : List String},
    y ∈ sortStrings l ↔ y ∈ l
  | [] => by simp [sortStrings]
  | x :: xs => by
    simp only [sortStrings, List.foldr_cons, mem_ssInsert, List.mem_cons]
    rw [show xs.foldr ssInsert [] = sortStrings xs from rfl, mem_sortStrings]

theorem sortStrings_sorted : ∀ {l : List String}, SortedSS (sortStrings l)
  | [] => by simp [sortStrings, SortedSS]
  | x :: xs => by
    simp only [sortStrings, List.foldr_cons]
    exact ssInsert_sorted (l := xs.foldr ssInsert [])
      (show SortedSS (sortStrings xs) from sortStrings_sorted)

/-! ## Characters and digit strings -/

theorem char_le_iff {a b : Char} : (a ≤ b) ↔ a.toNat ≤ b.toNat := by
  rw [Char.le_def]; rfl

theorem char_lt_iff {a b : Char} : (a < b) ↔ a.toNat < b.toNat := by
  rw [Char.lt_def]; rfl

theorem charToNat_ofNat {n : Nat} (h : n < 55296) : (Char.ofNat n).toNat = n := by
  have hv : n.isValidChar := Or.inl h
  simp only [Char.ofNat, hv, dif_pos, Char.ofNatAux, Char.toNat]
  rfl

theorem digitChar_toNat {d : Nat} (h : d < 10) : (digitChar d).toNat = 48 + d := by
  show (Char.ofNat (48 + d)).toNat = 48 + d
  exact charToNat_ofNat (by omega)

theorem isDigitCh_iff {c : Char} : isDigitCh c = true ↔ 48 ≤ c.toNat ∧ c.toNat ≤ 57 := by
  simp only [isDigitCh, Bool.and_eq_true, decide_eq_true_eq]
  rw [char_le_iff, char_le_iff]
  constructor
  · intro ⟨h1, h2⟩; exact ⟨h1, h2⟩
  · intro ⟨h1, h2⟩; exact ⟨h1, h2⟩

theorem isDigitCh_digitChar {d : Nat} (h : d < 10) : isDigitCh (digitChar d) = true := by
  rw [isDigitCh_iff, digitChar_toNat h]
  omega

theorem digitVal_digitChar {d : Nat} (h : d < 10) : digitVal (digitChar d) = d := by
  rw [digitVal, digitChar_toNat h]
  have h0 : ('0' : Char).toNat = 48 := rfl
  omega

theorem digit_ne {c : Char} (h : isDigitCh c = true) :
    c ≠ '-' ∧ c ≠ '+' ∧ c ≠ '.' := by
  rw [isDigitCh_iff] at h
  refine ⟨?_, ?_, ?_⟩ <;> · rintro rfl; revert h; decide

theorem natDigitsAux_congr : ∀ (f1 f2 n : Nat), n < f1 → n < f2 →
    natDigitsAux f1 n = natDigitsAux f2 n
  | 0, _, n => by omega
  | _ + 1, 0, n => by omega
  | f1 + 1, f2 + 1, n => by
    intro h1 h2
    simp only [natDigitsAux]
    split
    · rfl
    · rename_i hn
      have : n / 10 < f1 := by omega
      have : n / 10 < f2 := by omega
      rw [natDigitsAux_congr f1 f2 (n / 10) (by omega) (by omega)]

theorem natDigits_eq (n : Nat) :
    natDigits n = if n < 10 then [digitChar n]
                  else natDigits (n / 10) ++ [digitChar (n % 10)] := by
  rw [natDigits, natDigitsAux]
  split
  · rfl
  · rename_i hn
    rw [natDigits, natDigitsAux_congr n (n / 10 + 1) (n / 10) (by omega) (by omega)]

theorem natDigits_ne_nil (n : Nat) : natDigits n ≠ [] := by
  rw [natDigits_eq]
  split
  · simp
  · simp

theorem natDigits_all_digits (n : Nat) : ∀ c ∈ natDigits n, isDigitCh c = true := by
  induction n using Nat.strong_induction_on with
  | _ n ih =>
    rw [natDigits_eq]
    split
    · rename_i h
      intro c hc
      simp only [List.mem_singleton] at hc
      subst hc
      exact isDigitCh_digitChar h
    · rename_i h
      intro c hc
      rcases List.mem_append.mp hc with hc | hc
      · exact ih (n / 10) (by omega) c hc
      · simp only [List.mem_singleton] at hc
        subst hc
        exact isDigitCh_digitChar (by omega)

theorem parseDigitsFrom_append (acc : Nat) (l1 l2 : List Char) :
    parseDigitsFrom acc (l1 ++ l2) =
      match parseDigitsFrom acc l1 with
      | some m => parseDigitsFrom m l2
      | none => none := by
  induction l1 generalizing acc with
  | nil => simp [parseDigitsFrom]
  | cons c cs ih =>
    simp only [List.cons_append, parseDigitsFrom]
    split
    · exact ih _
    · rfl

theorem parseDigitsFrom_natDigits (n : Nat) : ∀ (acc : Nat),
    parseDigitsFrom acc (natDigits n) = some (acc * 10 ^ (natDigits n).length + n) := by
  induction n using Nat.strong_induction_on with
  | _ n ih =>
    intro acc
    rw [natDigits_eq]
    split
    · rename_i h
      simp [parseDigitsFrom, isDigitCh_digitChar h, digitVal_digitChar h]
    · rename_i h
      rw [parseDigitsFrom_append, ih (n / 10) (by omega) acc]
      have h10 : n % 10 < 10 := by omega
      simp only [parseDigitsFrom, isDigitCh_digitChar h10, if_pos,
        digitVal_digitChar h10, List.length_append, List.length_singleton]
      congr 1
      have : 10 ^ ((natDigits (n / 10)).length + 1) =
          10 ^ (natDigits (n / 10)).length * 10 := by ring
      rw [this]
      have := Nat.div_add_mod n 10
      ring_nf
      omega

theorem parseDigits_natDigits (n : Nat) : parseDigits (natDigits n) = some n := by
  rw [parseDigits, parseDigitsFrom_natDigits]
  simp

theorem natDigits_length_le {n k : Nat} (hk : 1 ≤ k) (h : n < 10 ^ k) :
    (natDigits n).length ≤ k := by
  induction k generalizing n with
  | zero => omega
  | succ k ih =>
    rw [natDigits_eq]
    split
    · simp
    · rename_i hn
      have hk1 : 1 ≤ k := by
        by_contra hk0
        have : k = 0 := by omega
        subst this
        simp at h
        omega
      have : n / 10 < 10 ^ k := by
        have : 10 ^ (k + 1) = 10 ^ k * 10 := by ring
        rw [this] at h
        omega
      have := ih hk1 this
      simp only [List.length_append, List.length_singleton]
      omega

theorem parseDigitsFrom_zeros (k : Nat) : ∀ (acc : Nat),
    parseDigitsFrom acc (List.replicate k '0') = some (acc * 10 ^ k) := by
  induction k with
  | zero => intro acc; simp [parseDigitsFrom]
  | succ k ih =>
    intro acc
    simp only [List.replicate_succ, parseDigitsFrom]
    have : isDigitCh '0' = true := by decide
    rw [if_pos this, ih]
    have : digitVal '0' = 0 := by decide
    rw [this]
    congr 1
    ring

theorem parseDigits_zeroPad {w r : Nat} : parseDigits (zeroPad w r) = some r := by
  rw [zeroPad, parseDigits, parseDigitsFrom_append, parseDigitsFrom_zeros]
  simp [parseDigitsFrom_natDigits]

theorem zeroPad_length {w r : Nat} (hw : 1 ≤ w) (h : r < 10 ^ w) :
    (zeroPad w r).length = w := by
  rw [zeroPad]
  simp only [List.length_append, List.length_replicate]
  have := natDigits_length_le hw h
  omega

theorem zeroPad_all_digits {w r : Nat} : ∀ c ∈ zeroPad w r, isDigitCh c = true := by
  intro c hc
  rw [zeroPad] at hc
  rcases List.mem_append.mp hc with hc | hc
  · rw [List.eq_of_mem_replicate hc]
    decide
  · exact natDigits_all_digits r c hc

/-! ## splitDot and decimal parsing -/

theorem contains_eq_false_of_not_mem {c : Char} {l : List Char} (h : c ∉ l) :
    l.contains c = false := by
  cases hc : l.contains c
  · rfl
  · exact absurd (List.mem_of_elem_eq_true hc) h

theorem splitDot_no_dot : ∀ {l : List Char}, '.' ∉ l → splitDot l = some (l, [], false)
  | [] => by intro _; rfl
  | c :: cs => by
    intro h
    have hc : c ≠ '.' := fun he => h (he ▸ List.mem_cons_self c cs)
    have hcs : '.' ∉ cs := fun he => h (List.mem_cons_of_mem c he)
    simp only [splitDot, if_neg (fun he => hc he), splitDot_no_dot hcs]

theorem splitDot_mid : ∀ {a : List Char} {b : List Char}, '.' ∉ a → '.' ∉ b →
    splitDot (a ++ '.' :: b) = some (a, b, true)
  | [], b => by
    intro _ hb
    simp only [List.nil_append, splitDot, if_pos rfl]
    rw [contains_eq_false_of_not_mem hb]
    simp
  | c :: cs, b => by
    intro ha hb
    have hc : c ≠ '.' := fun he => ha (he ▸ List.mem_cons_self c cs)
    have hcs : '.' ∉ cs := fun he => ha (List.mem_cons_of_mem c he)
    simp only [List.cons_append, splitDot, if_neg (fun he => hc he)]
    rw [show cs.append ('.' :: b) = cs ++ '.' :: b from rfl, splitDot_mid hcs hb]

theorem renderFixed_data (neg : Bool) (m p : Nat) :
    (renderFixed neg m p).data =
      (if neg then ['-'] else []) ++ natDigits (m / 10 ^ p) ++
      (if p = 0 then [] else '.' :: zeroPad p (m % 10 ^ p)) := rfl

theorem parseSign_eval (neg : Bool) {c : Char} (rest : List Char)
    (hm : c ≠ '-') (hp : c ≠ '+') :
    parseSign ((if neg then ['-'] else []) ++ c :: rest) = (neg, c :: rest) := by
  cases neg with
  | false => simp [parseSign, hm, hp]
  | true => simp [parseSign]

theorem parsePyDec_renderFixed (neg : Bool) (m p : Nat) :
    parsePyDec (renderFixed neg m p) = some ⟨neg, m, p⟩ := by
  have hq := natDigits_ne_nil (m / 10 ^ p)
  obtain ⟨qc, qcs, hqe⟩ : ∃ c cs, natDigits (m / 10 ^ p) = c :: cs := by
    cases hqd : natDigits (m / 10 ^ p) with
    | nil => exact absurd hqd hq
    | cons c cs => exact ⟨c, cs, rfl⟩
  have hqd : isDigitCh qc = true :=
    natDigits_all_digits _ qc (hqe ▸ List.mem_cons_self qc qcs)
  obtain ⟨hqm, hqp, _⟩ := digit_ne hqd
  have hqdot : '.' ∉ natDigits (m / 10 ^ p) := by
    intro hmem
    have := natDigits_all_digits _ '.' hmem
    simp [isDigitCh] at this
  by_cases hp : p = 0
  · subst hp
    rw [parsePyDec]
    have hqe' : natDigits m = qc :: qcs := by simpa using hqe
    have hdata : (renderFixed neg m 0).data =
        (if neg then ['-'] else []) ++ qc :: qcs := by
      rw [renderFixed_data]
      simp [hqe']
    have hqdot' : '.' ∉ natDigits m := by simpa using hqdot
    rw [hdata, parseSign_eval neg qcs hqm hqp]
    simp only [List.isEmpty_cons, Bool.false_eq_true, if_false]
    rw [← hqe', splitDot_no_dot hqdot']
    simp only [hqe', List.isEmpty_cons]
    rw [← hqe', parseDigits_natDigits]
    simp [parseDigits, parseDigitsFrom]
  · have hp1 : 1 ≤ p := by omega
    have hrlt : m % 10 ^ p < 10 ^ p := Nat.mod_lt _ (Nat.pos_pow_of_pos p (by omega))
    have hzdot : '.' ∉ zeroPad p (m % 10 ^ p) := by
      intro hmem
      have := zeroPad_all_digits '.' hmem
      simp [isDigitCh] at this
    rw [parsePyDec]
    have hdata : (renderFixed neg m p).data =
        (if neg then ['-'] else []) ++ qc :: (qcs ++ '.' :: zeroPad p (m % 10 ^ p)) := by
      rw [renderFixed_data]
      simp [hqe, hp]
    rw [hdata, parseSign_eval neg _ hqm hqp]
    simp only [List.isEmpty_cons, Bool.false_eq_true, if_false]
    rw [show qc :: (qcs ++ '.' :: zeroPad p (m % 10 ^ p)) =
          (qc :: qcs) ++ '.' :: zeroPad p (m % 10 ^ p) from rfl]
    rw [← hqe, splitDot_mid hqdot hzdot]
    simp only [hqe, List.isEmpty_cons]
    rw [← hqe, parseDigits_natDigits, parseDigits_zeroPad]
    simp only [Bool.false_and, Bool.false_eq_true, if_false, Option.some.injEq,
      PyDec.mk.injEq, zeroPad_length hp1 hrlt, true_and, and_true]
    conv_lhs => rw [Nat.mul_comm]
    exact Nat.div_add_mod m (10 ^ p)

theorem formatFixed_exact (neg : Bool) (m p : Nat) :
    formatFixed ⟨neg, m, p⟩ p = renderFixed neg m p := by
  rw [formatFixed, roundMagTo]
  simp

/-- `%.pf`-normalization round-trips: re-normalizing a rendered value
re-renders it unchanged. -/
theorem formatFixed_idem {v w : String} {d : PyDec} {p : Nat}
    (hv : parsePyDec v = some d) (hw : w = formatFixed d p) :
    parsePyDec w = some ⟨d.neg, roundMagTo d.mag d.scale p, p⟩ ∧
    formatFixed ⟨d.neg, roundMagTo d.mag d.scale p, p⟩ p = w := by
  subst hw
  rw [formatFixed]
  exact ⟨parsePyDec_renderFixed _ _ _, formatFixed_exact _ _ _⟩

/-! ## Python int round-trip -/

theorem parsePyInt_pyIntStr (i : Int) : parsePyInt (pyIntStr i) = some i := by
  have hq := natDigits_ne_nil i.natAbs
  obtain ⟨qc, qcs, hqe⟩ : ∃ c cs, natDigits i.natAbs = c :: cs := by
    cases hqd : natDigits i.natAbs with
    | nil => exact absurd hqd hq
    | cons c cs => exact ⟨c, cs, rfl⟩
  have hqd : isDigitCh qc = true :=
    natDigits_all_digits _ qc (hqe ▸ List.mem_cons_self qc qcs)
  obtain ⟨hqm, hqp, _⟩ := digit_ne hqd
  rw [parsePyInt]
  have hdata : (pyIntStr i).data =
      (if i < 0 then ['-'] else []) ++ qc :: qcs := by
    rw [pyIntStr]
    simp [hqe]
  rw [hdata, show ((if i < 0 then ['-'] else []) : List Char) =
      (if decide (i < 0) then ['-'] else []) from (by by_cases h : i < 0 <;> simp [h]),
    parseSign_eval (decide (i < 0)) qcs hqm hqp]
  simp only [List.isEmpty_cons, Bool.false_eq_true, if_false]
  rw [← hqe, parseDigits_natDigits]
  simp only [Option.some.injEq]
  by_cases h : i < 0
  · rw [if_pos (show decide (i < 0) = true by simp [h])]
    omega
  · rw [if_neg (show ¬ decide (i < 0) = true by simp [h])]
    omega

/-! ## ASCII lowercasing is idempotent -/

theorem asciiLower_idem (c : Char) : asciiLower (asciiLower c) = asciiLower c := by
  by_cases h : (decide ('A' ≤ c) && decide (c ≤ 'Z')) = true
  · have hlow : asciiLower c = Char.ofNat (c.toNat + 32) := by
      rw [asciiLower, if_pos h]
    simp only [Bool.and_eq_true, decide_eq_true_eq] at h
    obtain ⟨h1, h2⟩ := h
    rw [char_le_iff] at h1 h2
    have hA : ('A' : Char).toNat = 65 := rfl
    have hZ : ('Z' : Char).toNat = 90 := rfl
    rw [hA] at h1; rw [hZ] at h2
    have hto : (Char.ofNat (c.toNat + 32)).toNat = c.toNat + 32 :=
      charToNat_ofNat (by omega)
    have h2' : ¬(Char.ofNat (c.toNat + 32) ≤ 'Z') := by
      rw [char_le_iff, hto, hZ]; omega
    rw [hlow, asciiLower, if_neg (by simp [h2'])]
  · have hid : asciiLower c = c := by rw [asciiLower, if_neg h]
    rw [hid]
    exact hid

theorem lowerStr_idem (s : String) : lowerStr (lowerStr s) = lowerStr s := by
  cases s with
  | mk data =>
    show String.mk ((data.map asciiLower).map asciiLower) = String.mk (data.map asciiLower)
    rw [List.map_map]
    congr 1
    apply List.map_congr_left
    intro c _
    exact asciiLower_idem c

/-! ## splitCh lemmas (for the ip branch) -/

theorem splitCh_ne_nil (sep : Char) : ∀ (l : List Char), splitCh sep l ≠ []
  | [] => by simp [splitCh]
  | c :: cs => by
    simp only [splitCh]
    cases h : splitCh sep cs <;> by_cases hc : c = sep <;> simp [hc]

theorem splitCh_no_sep {sep : Char} : ∀ {l : List Char}, sep ∉ l → splitCh sep l = [l]
  | [] => by intro _; rfl
  | c :: cs => by
    intro h
    have hc : c ≠ sep := fun he => h (he ▸ List.mem_cons_self c cs)
    have hcs : sep ∉ cs := fun he => h (List.mem_cons_of_mem c he)
    simp only [splitCh, splitCh_no_sep hcs]
    rw [if_neg hc]

theorem splitCh_append {sep : Char} {rest : List Char} : ∀ {a : List Char}, sep ∉ a →
    splitCh sep (a ++ sep :: rest) = a :: splitCh sep rest
  | [] => by
    intro _
    simp only [List.nil_append, splitCh]
    cases h : splitCh sep rest with
    | nil => exact absurd h (splitCh_ne_nil sep rest)
    | cons g gs => simp
  | c :: cs => by
    intro ha
    have hc : c ≠ sep := fun he => ha (he ▸ List.mem_cons_self c cs)
    have hcs : sep ∉ cs := fun he => ha (List.mem_cons_of_mem c he)
    simp only [List.cons_append, splitCh]
    rw [show (cs.append (sep :: rest)) = cs ++ sep :: rest from rfl,
      splitCh_append hcs]
    simp [hc]

theorem strMk_data (s : String) : String.mk s.data = s := by cases s; rfl

theorem pyIntStr_no_dot (i : Int) : '.' ∉ (pyIntStr i).data := by
  rw [pyIntStr]
  intro hmem
  rcases List.mem_append.mp hmem with hm | hm
  · split at hm
    · simp only [List.mem_singleton] at hm
      cases hm
    · cases hm
  · have := natDigits_all_digits i.natAbs '.' hm
    simp [isDigitCh] at this

/-! ## NormalizeObject is idempotent -/

theorem NormalizeObject_idem (dt : List String) (v w : String)
    (h : NormalizeObject v dt = .ok w) : NormalizeObject w dt = .ok w := by
  cases hhd : dt.head? with
  | none => rw [NormalizeObject, hhd] at h; cases h
  | some d0 =>
    rw [NormalizeObject, hhd] at h ⊢
    simp only at h ⊢
    by_cases ht : d0 = "timestamp"
    · rw [if_pos ht] at h ⊢
      cases hv : parsePyDec v with
      | none => rw [hv] at h; cases h
      | some d =>
        rw [hv] at h
        cases h
        obtain ⟨hparse, hfmt⟩ := formatFixed_idem hv rfl
        rw [hparse]
        exact congrArg Except.ok hfmt
    · rw [if_neg ht] at h ⊢
      by_cases hn : d0 = "number"
      · rw [if_pos hn] at h ⊢
        cases h1 : dt.get? 1 with
        | none => rw [h1] at h; cases h
        | some d1 =>
          rw [h1] at h
          simp only at h ⊢
          by_cases hdec : d1 = "decimal"
          · rw [if_pos hdec] at h ⊢
            cases h3 : dt.get? 3 with
            | none => rw [h3] at h; cases h
            | some ps =>
              rw [h3] at h
              simp only at h ⊢
              cases hp : parseDigits ps.data with
              | none => rw [hp] at h; cases h
              | some p =>
                rw [hp] at h
                simp only at h ⊢
                cases hv : parsePyDec v with
                | none => rw [hv] at h; cases h
                | some d =>
                  rw [hv] at h
                  cases h
                  obtain ⟨hparse, hfmt⟩ := formatFixed_idem hv rfl
                  rw [hparse]
                  exact congrArg Except.ok hfmt
          · rw [if_neg hdec] at h ⊢
            by_cases hint : (d1 = "tinyint" || d1 = "smallint" || d1 = "mediumint" ||
                d1 = "int" || d1 = "bigint") = true
            · rw [if_pos hint] at h ⊢
              cases hv : parsePyInt v with
              | none => rw [hv] at h; cases h
              | some i =>
                rw [hv] at h
                cases h
                rw [parsePyInt_pyIntStr]
            · rw [if_neg hint] at h ⊢
              cases hv : parsePyDec v with
              | none => rw [hv] at h; cases h
              | some d =>
                rw [hv] at h
                cases h
                obtain ⟨hparse, hfmt⟩ := formatFixed_idem hv rfl
                rw [hparse]
                exact congrArg Except.ok hfmt
      · rw [if_neg hn] at h ⊢
        by_cases hip : d0 = "ip"
        · rw [if_pos hip] at h ⊢
          rcases hsplit : (splitCh '.' v.data).map (fun cs => String.mk cs) with
            _ | ⟨o0, _ | ⟨o1, _ | ⟨o2, _ | ⟨o3, orest⟩⟩⟩⟩ <;>
            rw [hsplit] at h <;> simp only [List.get?] at h
          · cases h
          · cases h
          · cases h
          · cases h
          · cases hv0 : parsePyInt o0 <;> rw [hv0] at h
            · cases h
            cases hv1 : parsePyInt o1 <;> rw [hv1] at h
            · cases h
            cases hv2 : parsePyInt o2 <;> rw [hv2] at h
            · cases h
            cases hv3 : parsePyInt o3 <;> rw [hv3] at h
            · cases h
            rename_i i0 i1 i2 i3
            cases h
            have hw : (pyIntStr i0 ++ "." ++ pyIntStr i1 ++ "." ++ pyIntStr i2 ++ "." ++
                pyIntStr i3).data =
                (pyIntStr i0).data ++ '.' :: ((pyIntStr i1).data ++ '.' ::
                ((pyIntStr i2).data ++ '.' :: (pyIntStr i3).data)) := by
              simp [String.data_append]
            rw [hw, splitCh_append (pyIntStr_no_dot i0),
              splitCh_append (pyIntStr_no_dot i1), splitCh_append (pyIntStr_no_dot i2),
              splitCh_no_sep (pyIntStr_no_dot i3)]
            simp only [List.map_cons, List.map_nil, List.get?]
            rw [strMk_data, strMk_data, strMk_data, strMk_data,
              parsePyInt_pyIntStr, parsePyInt_pyIntStr, parsePyInt_pyIntStr,
              parsePyInt_pyIntStr]
        · rw [if_neg hip] at h ⊢
          by_cases hs : d0 = "string"
          · rw [if_pos hs] at h ⊢
            cases h2 : dt.get? 2 with
            | none => rw [h2] at h; cases h
            | some d2 =>
              rw [h2] at h
              simp only at h ⊢
              by_cases hci : d2 = "ci"
              · rw [if_pos hci] at h ⊢
                cases h
                rw [lowerStr_idem]
              · rw [if_neg hci] at h ⊢
          · rw [if_neg hs] at h ⊢
            by_cases hb : d0 = "boolean"
            · rw [if_pos hb] at h ⊢
              cases h
              rw [lowerStr_idem]
            · rw [if_neg hb] at h ⊢

/-! ## Generic Except lemmas -/

theorem exceptBind_eq_ok {ε α β : Type} {x : Except ε α} {f : α → Except ε β}
    {y : β} : (x >>= f) = .ok y ↔ ∃ a, x = .ok a ∧ f a = .ok y := by
  cases x with
  | error e =>
    constructor
    · intro h; cases h
    · rintro ⟨a, ha, _⟩; cases ha
  | ok a =>
    constructor
    · intro h; exact ⟨a, rfl, h⟩
    · rintro ⟨a', ha, hf⟩
      cases ha
      exact hf

theorem exceptBind_eq_error {ε α β : Type} {x : Except ε α} {f : α → Except ε β}
    {e : ε} : (x >>= f) = .error e ↔
      x = .error e ∨ ∃ a, x = .ok a ∧ f a = .error e := by
  cases x with
  | error e' =>
    constructor
    · intro h
      cases h
      exact Or.inl rfl
    · rintro (h | ⟨a, ha, _⟩)
      · cases h; rfl
      · cases ha
  | ok a =>
    constructor
    · intro h; exact Or.inr ⟨a, rfl, h⟩
    · rintro (h | ⟨a', ha, hf⟩)
      · cases h
      · cases ha
        exact hf

/-! ## Claim C5 — NormalizeObject is idempotent -/

/-- C5: for every data type and every value that normalizes successfully,
`NormalizeObject` is idempotent; in particular
`normalize("1.5", number:decimal:10:4) = "1.5000"`,
`normalize("192.168.001.001", ip) = "192.168.1.1"` and
`normalize("TRUE", boolean) = "true"`. -/
theorem claim_C5_normalize_idempotent :
    (∀ (dt : List String) (v w : String),
        NormalizeObject v dt = .ok w → NormalizeObject w dt = .ok w) ∧
    NormalizeObject "1.5" ["number", "decimal", "10", "4"] = .ok "1.5000" ∧
    NormalizeObject "192.168.001.001" ["ip"] = .ok "192.168.1.1" ∧
    NormalizeObject "TRUE" ["boolean"] = .ok "true" :=
  ⟨NormalizeObject_idem, by decide, by decide, by decide⟩

/-- Witness for C5: the idempotence theorem applied to the boolean example. -/
theorem claim_C5_witness :
    NormalizeObject "TRUE" ["boolean"] = .ok "true" ∧
    NormalizeObject "true" ["boolean"] = .ok "true" :=
  ⟨by decide, claim_C5_normalize_idempotent.1 ["boolean"] "TRUE" "true" (by decide)⟩

/-! ## Claim C8 — hashlink validation never raises -/

/-- C8 (code behaviour at the failing input): `ValidateObject` never raises
for `hashlink` values — the source compares `re.match(...)` to `False`,
which is always false in Python, so the error branch is dead; the claim
says a non-40-hex-character value such as "xyz" must raise
`InvalidObjectValue`. -/
theorem claim_C8_hashlink_never_raises :
    (∀ (v ot : String), ValidateObject v ot "hashlink" = .ok ()) ∧
    ValidateObject "xyz" "ot" "hashlink" = .ok () := by
  refine ⟨fun v ot => ?_, by decide⟩
  rfl

/-! ## Claim C3 — min/max on timestamps picks the lexicographic extremum -/

/-- C3 (failing input): merging timestamp values "999999999.000000" (target)
and "1000000000.000000" (source) under merge strategy `min` keeps
"1000000000.000000" — the lexicographically smallest string — although it is
the numerically larger timestamp, as the second conjunct states. -/
theorem claim_C3_timestamp_min_is_lexicographic :
    MergeEvents tsMinDefs "e"
      [("u", ["k"]), ("t", ["999999999.000000"])]
      [("u", ["k"]), ("t", ["1000000000.000000"])] =
      .ok ([("u", ["k"]), ("t", ["1000000000.000000"])],
           [("u", ["k"]), ("t", ["1000000000.000000"])], true) ∧
    (match parsePyDec "999999999.000000", parsePyDec "1000000000.000000" with
     | some a, some b => decLt a b
     | _, _ => false) = true :=
  ⟨by decide, by decide⟩

/-! ## Error classification for the merge engine -/

theorem GetPropertyObjectType_no_unsup (defs : EDXMLDefinitions) (etn p : String) :
    GetPropertyObjectType defs etn p ≠ .error .unsupportedOperation := by
  rw [GetPropertyObjectType]
  split
  · simp
  · split
    · simp
    · split
      · simp
      · simp

theorem GetObjectTypeDataType_no_unsup (defs : EDXMLDefinitions) (ot : String) :
    GetObjectTypeDataType defs ot ≠ .error .unsupportedOperation := by
  rw [GetObjectTypeDataType]
  split
  · simp
  · split
    · simp
    · simp

theorem mapM_no_err {α β : Type} {f : α → Except PyErr β} {e : PyErr}
    (hf : ∀ x, f x ≠ .error e) : ∀ (l : List α), l.mapM f ≠ .error e := by
  intro l
  induction l with
  | nil => simp [List.mapM_nil]; intro h; cases h
  | cons a as ih =>
    rw [List.mapM_cons]
    intro h
    rcases exceptBind_eq_error.mp h with h1 | ⟨b, _, h2⟩
    · exact hf a h1
    · rcases exceptBind_eq_error.mp h2 with h3 | ⟨bs, _, h4⟩
      · exact ih h3
      · cases h4

theorem foldlM_no_err {α β : Type} {f : β → α → Except PyErr β} {e : PyErr}
    (hf : ∀ b a, f b a ≠ .error e) : ∀ (l : List α) (b : β),
    l.foldlM f b ≠ .error e := by
  intro l
  induction l with
  | nil => intro b h; cases h
  | cons a as ih =>
    intro b
    rw [List.foldlM_cons]
    intro h
    rcases exceptBind_eq_error.mp h with h1 | ⟨b', _, h2⟩
    · exact hf b a h1
    · exact ih b' h2

theorem mergeStep_no_unsup (defs : EDXMLDefinitions) (etn : String)
    (rec0 : EventTypeRec) (src tgt : List (String × List String)) (p : String) :
    mergeStep defs etn rec0 src tgt p ≠ .error .unsupportedOperation := by
  intro h
  rw [mergeStep] at h
  by_cases h1 : ssMem p rec0.uniqueProperties = true
  · rw [if_pos h1] at h; cases h
  · rw [if_neg h1] at h
    cases h2 : alookup rec0.properties p <;> rw [h2] at h
    · simp at h
    rename_i pattrs
    simp only at h
    cases h3 : alookup pattrs "merge" <;> rw [h3] at h
    · simp at h
    rename_i strat
    simp only at h
    by_cases h4 : (strat = "min" || strat = "max" : Bool) = true
    · rw [if_pos h4] at h
      rcases exceptBind_eq_error.mp h with h5 | ⟨ot, _, h6⟩
      · exact GetPropertyObjectType_no_unsup defs etn p h5
      rcases exceptBind_eq_error.mp h6 with h7 | ⟨dtStr, _, h8⟩
      · exact GetObjectTypeDataType_no_unsup defs ot h7
      try simp only at h8
      revert h8
      split
      · -- number or timestamp
        split
        · -- timestamp: the match on the chosen extremum
          split
          · intro h8; simp at h8
          · intro h8; cases h8
        · -- number: match on dt.get? 1
          split
          · intro h8; simp at h8
          · split
            · -- float/double
              intro h8
              rcases exceptBind_eq_error.mp h8 with h9 | ⟨vals, _, h10⟩
              · refine mapM_no_err ?_ _ h9
                intro x
                split
                · simp
                · simp
              · try simp only at h10
                revert h10
                split
                · intro h10; simp at h10
                · intro h10; cases h10
            · split
              · -- decimal
                intro h8
                rcases exceptBind_eq_error.mp h8 with h9 | ⟨vals, _, h10⟩
                · refine mapM_no_err ?_ _ h9
                  intro x
                  split
                  · simp
                  · simp
                · try simp only at h10
                  revert h10
                  split
                  · intro h10; simp at h10
                  · intro h10; cases h10
              · -- int kinds
                intro h8
                rcases exceptBind_eq_error.mp h8 with h9 | ⟨vals, _, h10⟩
                · refine mapM_no_err ?_ _ h9
                  intro x
                  split
                  · simp
                  · simp
                · try simp only at h10
                  revert h10
                  split
                  · intro h10; simp at h10
                  · intro h10; cases h10
      · intro h8; cases h8
    · rw [if_neg h4] at h
      by_cases h5 : (strat = "add")
      · rw [if_pos h5] at h; cases h
      · rw [if_neg h5] at h
        by_cases h6 : (strat = "replace")
        · rw [if_pos h6] at h; cases h
        · rw [if_neg h6] at h; cases h

theorem mergeTargets_no_unsup (defs : EDXMLDefinitions) (etn : String)
    (rec0 : EventTypeRec) (props : List String)
    (A B : List (String × List String)) :
    mergeTargets defs etn rec0 props A B ≠ .error .unsupportedOperation := by
  intro h
  rw [mergeTargets] at h
  rcases exceptBind_eq_error.mp h with h1 | ⟨t1, _, h2⟩
  · exact foldlM_no_err (fun b a => mergeStep_no_unsup defs etn rec0 _ b a) props _ h1
  · refine foldlM_no_err ?_ _ t1 h2
    intro t q
    split
    · simp
    · split
      · simp
      · simp

/-! ## Claim C9 — MergeEvents demands a unique event type -/

theorem GetEventTypeProperties_no_unsup (defs : EDXMLDefinitions) (etn : String) :
    GetEventTypeProperties defs etn ≠ .error .unsupportedOperation := by
  rw [GetEventTypeProperties]
  split
  · simp
  · simp

/-- C9: `MergeEvents` raises `UnsupportedOperation` exactly when the event
type is not unique: for a non-unique event type it raises it immediately,
and for a unique event type no such error can be produced. -/
theorem claim_C9_merge_requires_unique (defs : EDXMLDefinitions) (etn : String)
    (rec0 : EventTypeRec) (A B : List (String × List String))
    (hdef : alookup defs.EventTypes etn = some rec0) :
    (rec0.unique = false →
       MergeEvents defs etn A B = .error .unsupportedOperation) ∧
    (rec0.unique = true →
       MergeEvents defs etn A B ≠ .error .unsupportedOperation) := by
  constructor
  · intro hu
    rw [MergeEvents, hdef]
    refine exceptBind_eq_error.mpr (Or.inr ⟨rec0, rfl, ?_⟩)
    simp only
    rw [if_pos hu]
  · intro hu h
    rw [MergeEvents, hdef] at h
    simp only at h
    rcases exceptBind_eq_error.mp h with h1 | ⟨a, ha, hf⟩
    · cases h1
    cases ha
    try simp only at hf
    rw [if_neg (by rw [hu]; simp)] at hf
    rcases exceptBind_eq_error.mp hf with h1 | ⟨props, _, h2⟩
    · exact GetEventTypeProperties_no_unsup defs etn h1
    rcases exceptBind_eq_error.mp h2 with h3 | ⟨t2, _, h4⟩
    · exact mergeTargets_no_unsup defs etn rec0 props A B h3
    revert h4
    split
    · intro h4; cases h4
    · intro h4; cases h4

/-- Witness for C9: at the S4 registry (unique event type `et`) the merge
does not raise `UnsupportedOperation`; at a non-unique variant it does. -/
theorem claim_C9_witness :
    (MergeEvents s4Defs "et" [("a", ["x"])] [("a", ["y"])] ≠
       .error .unsupportedOperation) ∧
    MergeEvents
      { s4Defs with EventTypes := [("et", { s4Rec with unique := false })] }
      "et" [("a", ["x"])] [("a", ["y"])] = .error .unsupportedOperation :=
  ⟨(claim_C9_merge_requires_unique s4Defs "et" s4Rec
      [("a", ["x"])] [("a", ["y"])] (by decide)).2 rfl,
   (claim_C9_merge_requires_unique
      { s4Defs with EventTypes := [("et", { s4Rec with unique := false })] }
      "et" { s4Rec with unique := false } [("a", ["x"])] [("a", ["y"])]
      (by decide)).1 rfl⟩

/-! ## The ok-shape of MergeEvents -/

theorem MergeEvents_ok_cases {defs : EDXMLDefinitions} {etn : String}
    {A B : List (String × List String)}
    {r : List (String × List String) × List (String × List String) × Bool}
    (h : MergeEvents defs etn A B = .ok r) :
    ∃ rec0 props target2,
      alookup defs.EventTypes etn = some rec0 ∧
      rec0.unique = true ∧
      alookup defs.PropertyNames etn = some props ∧
      mergeTargets defs etn rec0 props A B = .ok target2 ∧
      r = (if mergeChanged props A target2
           then (target2.map (fun kv => (kv.1, kv.2)), B, true)
           else (A, B, false)) := by
  rw [MergeEvents] at h
  cases hdef : alookup defs.EventTypes etn with
  | none => rw [hdef] at h; cases h
  | some rec0 =>
    rw [hdef] at h
    simp only at h
    rcases exceptBind_eq_ok.mp h with ⟨a, ha, hf⟩
    cases ha
    try simp only at hf
    by_cases hu : rec0.unique = false
    · rw [if_pos hu] at hf; cases hf
    · rw [if_neg hu] at hf
      rcases exceptBind_eq_ok.mp hf with ⟨props, hprops, h2⟩
      rcases exceptBind_eq_ok.mp h2 with ⟨target2, htgt, h3⟩
      refine ⟨rec0, props, target2, rfl,
        by revert hu; cases rec0.unique <;> simp, ?_, htgt, ?_⟩
      · rw [GetEventTypeProperties] at hprops
        cases hpn : alookup defs.PropertyNames etn <;> rw [hpn] at hprops
        · cases hprops
        · rename_i l
          try simp only at hprops
          cases hprops
          rfl
      · try simp only at h3
        revert h3
        split
        · intro h3
          cases h3
          rfl
        · intro h3
          cases h3
          rfl

/-! ## Claim C10 — frame conditions of MergeEvents -/

/-- C10: a successful merge never modifies event B's objects, and when it
reports no change it returns event A's objects untouched. -/
theorem claim_C10_merge_frame (defs : EDXMLDefinitions) (etn : String)
    (A B A' B' : List (String × List String)) (ch : Bool)
    (h : MergeEvents defs etn A B = .ok (A', B', ch)) :
    B' = B ∧ (ch = false → A' = A) := by
  rcases MergeEvents_ok_cases h with ⟨rec0, props, target2, _, _, _, _, hr⟩
  revert hr
  split
  · intro hr
    cases hr
    exact ⟨rfl, fun hc => by cases hc⟩
  · intro hr
    cases hr
    exact ⟨rfl, fun _ => rfl⟩

/-- Witness for C10: merging two identical S4 events reports no change and
returns both object maps untouched. -/
theorem claim_C10_witness :
    MergeEvents s4Defs "et" s4ObjA s4ObjA = .ok (s4ObjA, s4ObjA, false) ∧
    s4ObjA = s4ObjA :=
  ⟨by decide,
   (claim_C10_merge_frame s4Defs "et" s4ObjA s4ObjA s4ObjA s4ObjA false
      (by decide)).2 rfl⟩

/-! ## Claim C4 — the merge reports change iff a value set changed -/

theorem alookup_map_graph {α : Type} (f : String → α) :
    ∀ {props : List String} {p : String}, p ∈ props →
      alookup (props.map fun q => (q, f q)) p = some (f p) := by
  intro props
  induction props with
  | nil => intro p hp; cases hp
  | cons q qs ih =>
    intro p hp
    simp only [List.map_cons, alookup]
    by_cases hpq : p = q
    · subst hpq
      simp
    · rw [if_neg hpq]
      refine ih ?_
      rcases List.mem_cons.mp hp with h | h
      · exact absurd h hpq
      · exact h

theorem mergeChanged_iff (props : List String)
    (A target2 : List (String × List String)) :
    mergeChanged props A target2 = true ↔
      ∃ p ∈ props, (alookup target2 p).getD [] ≠ ssOfList ((alookup A p).getD []) := by
  rw [mergeChanged]
  simp only [List.any_eq_true]
  constructor
  · rintro ⟨p, hp, hpred⟩
    refine ⟨p, hp, ?_⟩
    rw [alookup_map_graph (fun q => ssOfList ((alookup A q).getD [])) hp] at hpred
    simp only [Option.isNone_some, Bool.false_and, Bool.false_or,
      decide_eq_true_eq, Option.getD_some] at hpred
    exact hpred
  · rintro ⟨p, hp, hpred⟩
    refine ⟨p, hp, ?_⟩
    rw [alookup_map_graph (fun q => ssOfList ((alookup A q).getD [])) hp]
    simp only [Option.isNone_some, Bool.false_and, Bool.false_or,
      decide_eq_true_eq, Option.getD_some]
    exact hpred

/-- C4: a successful merge returns `true` exactly when some property's final
value set differs from its original value set in event A; concretely the
spec's S4 scenario `A = {a:{x}, m:{5}, r:{old}, u:{k}}`,
`B = {a:{y}, m:{3}, r:{new}, u:{k}}` merges to
`A' = {a:{x,y}, m:{3}, r:{new}, u:{k}}` with `changed = true`. -/
theorem claim_C4_merge_changed :
    (∀ (defs : EDXMLDefinitions) (etn : String)
       (A B : List (String × List String))
       (r : List (String × List String) × List (String × List String) × Bool)
       (rec0 : EventTypeRec) (props : List String)
       (target2 : List (String × List String)),
       alookup defs.EventTypes etn = some rec0 →
       alookup defs.PropertyNames etn = some props →
       mergeTargets defs etn rec0 props A B = .ok target2 →
       MergeEvents defs etn A B = .ok r →
       (r.2.2 = true ↔ ∃ p ∈ props,
          (alookup target2 p).getD [] ≠ ssOfList ((alookup A p).getD []))) ∧
    MergeEvents s4Defs "et" s4ObjA s4ObjB = .ok (s4Target, s4ObjB, true) := by
  constructor
  · intro defs etn A B r rec0 props target2 hdef hpn htgt h
    rcases MergeEvents_ok_cases h with
      ⟨rec0', props', target2', hdef', _, hpn', htgt', hr⟩
    rw [hdef] at hdef'
    cases hdef'
    rw [hpn] at hpn'
    cases hpn'
    rw [htgt] at htgt'
    cases htgt'
    subst hr
    by_cases hc : mergeChanged props A target2 = true
    · rw [if_pos hc]
      simpa using (mergeChanged_iff props A target2).mp hc
    · rw [if_neg hc]
      simp only [Bool.false_eq_true, false_iff]
      intro hex
      exact hc ((mergeChanged_iff props A target2).mpr hex)
  · decide

/-- Witness for C4: the iff instantiated at the S4 scenario. -/
theorem claim_C4_witness :
    ((s4Target, s4ObjB, true).2.2 = true ↔ ∃ p ∈ ["a", "m", "r", "u"],
       (alookup s4Target p).getD [] ≠ ssOfList ((alookup s4ObjA p).getD [])) :=
  claim_C4_merge_changed.1 s4Defs "et" s4ObjA s4ObjB (s4Target, s4ObjB, true)
    s4Rec ["a", "m", "r", "u"] s4Target (by decide) (by decide) (by decide)
    (by decide)

/-! ## Claim C6 — re-registration consistency -/

theorem alookup_some_mem {α : Type} : ∀ {m : List (String × α)} {k : String}
    {v : α}, alookup m k = some v → (k, v) ∈ m := by
  intro m
  induction m with
  | nil => intro k v h; cases h
  | cons kv rest ih =>
    intro k v h
    rw [alookup] at h
    by_cases hk : k = kv.1
    · rw [if_pos hk] at h
      cases h
      subst hk
      exact List.mem_cons_self _ _
    · rw [if_neg hk] at h
      exact List.mem_cons_of_mem _ (ih h)

theorem alookup_isSome_of_mem {α : Type} : ∀ {m : List (String × α)} {k : String}
    {v : α}, (k, v) ∈ m → ∃ v', alookup m k = some v' := by
  intro m
  induction m with
  | nil => intro k v h; cases h
  | cons kv rest ih =>
    intro k v h
    rw [alookup]
    by_cases hk : k = kv.1
    · rw [if_pos hk]
      exact ⟨kv.2, rfl⟩
    · rw [if_neg hk]
      rcases List.mem_cons.mp h with h | h
      · cases h
        simp at hk
      · exact ih h

theorem foldlM_unit_ok {α : Type} {f : α → Except PyErr Unit} :
    ∀ {l : List α}, (l.foldlM (fun _ kv => f kv) () = Except.ok ()) ↔
      ∀ kv ∈ l, f kv = .ok () := by
  intro l
  induction l with
  | nil => simp [List.foldlM_nil]; rfl
  | cons a as ih =>
    rw [List.foldlM_cons]
    constructor
    · intro h
      rcases exceptBind_eq_ok.mp h with ⟨u, ha, hrest⟩
      intro kv hkv
      rcases List.mem_cons.mp hkv with hkv | hkv
      · subst hkv; exact ha
      · exact ih.mp hrest kv hkv
    · intro h
      refine exceptBind_eq_ok.mpr ⟨(), h a (List.mem_cons_self a as), ?_⟩
      exact ih.mpr (fun kv hkv => h kv (List.mem_cons_of_mem a hkv))

theorem checkAddedAttr_ok_iff {entity a v : String} :
    checkAddedAttr entity a v = .ok () ↔
      ∃ table spec, alookup EDXMLEntityAttributes entity = some table ∧
        alookup table a = some spec ∧ spec.mandatory = false ∧
        spec.dflt = some v := by
  rw [checkAddedAttr]
  cases ht : alookup EDXMLEntityAttributes entity with
  | none =>
    simp only
    constructor
    · intro h; cases h
    · rintro ⟨table, spec, hte, _⟩; cases hte
  | some table =>
    simp only
    cases ha : alookup table a with
    | none =>
      simp only
      constructor
      · intro h; cases h
      · rintro ⟨table', spec, hte, has, _⟩
        cases hte
        rw [ha] at has
        cases has
    | some spec =>
      simp only
      by_cases hm : spec.mandatory = true
      · rw [if_pos hm]
        constructor
        · intro h; cases h
        · rintro ⟨table', spec', hte, has, hmand, _⟩
          cases hte
          rw [ha] at has
          cases has
          rw [hm] at hmand
          cases hmand
      · rw [if_neg hm]
        cases hd : spec.dflt with
        | none =>
          simp only
          constructor
          · intro h; cases h
          · rintro ⟨table', spec', hte, has, _, hdef⟩
            cases hte
            rw [ha] at has
            cases has
            rw [hd] at hdef
            cases hdef
        | some d =>
          simp only
          by_cases hv : v ≠ d
          · rw [if_pos hv]
            constructor
            · intro h; cases h
            · rintro ⟨table', spec', hte, has, _, hdef⟩
              cases hte
              rw [ha] at has
              cases has
              rw [hd] at hdef
              cases hdef
              exact absurd rfl hv
          · rw [if_neg hv]
            simp only [not_not] at hv
            subst hv
            constructor
            · intro _
              exact ⟨table, spec, rfl, ha, by revert hm; cases spec.mandatory <;> simp,
                hd⟩
            · intro _; rfl

/-- C6: on re-registration, the consistency check succeeds exactly when
every retained attribute compares equal, every added attribute is optional
with a documented default equal to its new value, and every removed
attribute is optional with a documented default equal to its previous
value.  (A missing table row — including the undocumented 'parent' entity
kind — fails the check, as a Python `KeyError`.) -/
theorem claim_C6_consistency_check (entity : String) (cur upd : AttrMap) :
    CheckEdxmlEntityConsistency entity cur upd = .ok () ↔
      ((∀ a cv uv, alookup cur a = some cv → alookup upd a = some uv → uv = cv) ∧
       (∀ a uv, alookup cur a = none → alookup upd a = some uv →
          ∃ table spec, alookup EDXMLEntityAttributes entity = some table ∧
            alookup table a = some spec ∧ spec.mandatory = false ∧
            spec.dflt = some uv) ∧
       (∀ a cv, alookup upd a = none → alookup cur a = some cv →
          ∃ table spec, alookup EDXMLEntityAttributes entity = some table ∧
            alookup table a = some spec ∧ spec.mandatory = false ∧
            spec.dflt = some cv)) := by
  rw [CheckEdxmlEntityConsistency]
  constructor
  · intro h
    rcases exceptBind_eq_ok.mp h with ⟨u1, h1, hrest⟩
    rcases exceptBind_eq_ok.mp hrest with ⟨u2, h2, h3⟩
    cases u1; cases u2
    refine ⟨?_, ?_, ?_⟩
    · intro a cv uv hcv huv
      have := foldlM_unit_ok.mp h1 (a, uv) (alookup_some_mem huv)
      rw [hcv] at this
      simp only at this
      by_cases hne : (alookup upd a).getD "" ≠ cv
      · rw [if_pos hne] at this; cases this
      · simp only [not_not] at hne
        rw [huv] at hne
        exact hne
    · intro a uv hnone huv
      have := foldlM_unit_ok.mp h2 (a, uv) (alookup_some_mem huv)
      rw [hnone] at this
      simp only at this
      rw [huv] at this
      exact checkAddedAttr_ok_iff.mp this
    · intro a cv hnone hcv
      have := foldlM_unit_ok.mp h3 (a, cv) (alookup_some_mem hcv)
      rw [hnone] at this
      simp only at this
      rw [hcv] at this
      exact checkAddedAttr_ok_iff.mp this
  · rintro ⟨p1, p2, p3⟩
    refine exceptBind_eq_ok.mpr ⟨(), ?_, exceptBind_eq_ok.mpr ⟨(), ?_, ?_⟩⟩
    · refine foldlM_unit_ok.mpr ?_
      intro kv hkv
      cases hcur : alookup cur kv.1 with
      | none => simp only
      | some cv =>
        simp only
        obtain ⟨uv, huv⟩ := alookup_isSome_of_mem hkv
        rw [if_neg]
        rw [huv]
        simp only [Option.getD_some]
        intro hne
        exact hne (p1 kv.1 cv uv hcur huv)
    · refine foldlM_unit_ok.mpr ?_
      intro kv hkv
      cases hcur : alookup cur kv.1 with
      | some cv => simp only
      | none =>
        simp only
        obtain ⟨uv, huv⟩ := alookup_isSome_of_mem hkv
        rw [huv]
        simp only [Option.getD_some]
        exact checkAddedAttr_ok_iff.mpr (p2 kv.1 uv hcur huv)
    · refine foldlM_unit_ok.mpr ?_
      intro kv hkv
      cases hupd : alookup upd kv.1 with
      | some uv => simp only
      | none =>
        simp only
        obtain ⟨cv, hcv⟩ := alookup_isSome_of_mem hkv
        rw [hcv]
        simp only [Option.getD_some]
        exact checkAddedAttr_ok_iff.mpr (p3 kv.1 cv hupd hcv)

/-! ## Claim C7 — the derived-set invariants of AddNewProperty -/

theorem alookup_aset_self {α : Type} : ∀ (m : List (String × α)) (k : String)
    (v : α), alookup (aset m k v) k = some v := by
  intro m
  induction m with
  | nil => intro k v; simp [aset, alookup]
  | cons kv rest ih =>
    intro k v
    rw [aset]
    by_cases hk : k = kv.1
    · rw [if_pos hk, alookup, if_pos rfl]
    · rw [if_neg hk, alookup, if_neg hk]
      exact ih k v

theorem addPropDerived_pm (r : EventTypeRec) (pname : String) (attrs : AttrMap) :
    (addPropDerived r pname attrs).parentmapping = r.parentmapping := by
  simp only [addPropDerived]
  cases hm : alookup attrs "merge" with
  | none =>
    by_cases hu : attrIsTrue attrs "unique" = true <;> simp [hu]
  | some m =>
    by_cases h1 : (m = "match" || m = "min" || m = "max") = true <;>
      by_cases h2 : (m = "match" || m = "replace" || m = "min" || m = "max") = true <;>
      by_cases hu : attrIsTrue attrs "unique" = true <;>
      by_cases h3 : (alookup r.parentmapping pname).isSome = true <;>
      simp [h1, h2, h3, hu]

theorem addPropDerived_unique_flag (r : EventTypeRec) (pname : String)
    (attrs : AttrMap) :
    (addPropDerived r pname attrs).unique =
      (r.unique || attrIsTrue attrs "unique") := by
  simp only [addPropDerived]
  cases hm : alookup attrs "merge" with
  | none =>
    by_cases hu : attrIsTrue attrs "unique" = true <;> simp [hu]
  | some m =>
    by_cases h1 : (m = "match" || m = "min" || m = "max") = true <;>
      by_cases h2 : (m = "match" || m = "replace" || m = "min" || m = "max") = true <;>
      by_cases hu : attrIsTrue attrs "unique" = true <;>
      by_cases h3 : (alookup r.parentmapping pname).isSome = true <;>
      simp [h1, h2, h3, hu]

theorem addPropDerived_unique_mem (r : EventTypeRec) (pname : String)
    (attrs : AttrMap) (p : String) :
    p ∈ (addPropDerived r pname attrs).uniqueProperties ↔
      (p = pname ∧ attrIsTrue attrs "unique" = true) ∨
      p ∈ r.uniqueProperties := by
  simp only [addPropDerived]
  cases hm : alookup attrs "merge" with
  | none =>
    by_cases hu : attrIsTrue attrs "unique" = true <;>
      simp [hu, mem_ssInsert]
  | some m =>
    by_cases h1 : (m = "match" || m = "min" || m = "max") = true <;>
      by_cases h2 : (m = "match" || m = "replace" || m = "min" || m = "max") = true <;>
      by_cases hu : attrIsTrue attrs "unique" = true <;>
      by_cases h3 : (alookup r.parentmapping pname).isSome = true <;>
      simp [h1, h2, h3, hu, mem_ssInsert]

theorem addPropDerived_mandatory_mem (r : EventTypeRec) (pname : String)
    (attrs : AttrMap) (p : String) :
    p ∈ (addPropDerived r pname attrs).mandatoryProperties ↔
      (p = pname ∧ mandatoryMergeCond attrs = true) ∨
      p ∈ r.mandatoryProperties := by
  simp only [addPropDerived, mandatoryMergeCond]
  cases hm : alookup attrs "merge" with
  | none =>
    by_cases hu : attrIsTrue attrs "unique" = true <;>
      simp [hu, mem_ssInsert]
  | some m =>
    by_cases h1 : (m = "match" || m = "min" || m = "max") = true <;>
      by_cases h2 : (m = "match" || m = "replace" || m = "min" || m = "max") = true <;>
      by_cases hu : attrIsTrue attrs "unique" = true <;>
      by_cases h3 : (alookup r.parentmapping pname).isSome = true <;>
      simp [h1, h2, h3, hu, mem_ssInsert]

theorem addPropDerived_singleton_mem (r : EventTypeRec) (pname : String)
    (attrs : AttrMap) (p : String) :
    p ∈ (addPropDerived r pname attrs).singletonProperties ↔
      (p = pname ∧ singletonMergeCond r.parentmapping attrs pname = true) ∨
      p ∈ r.singletonProperties := by
  simp only [addPropDerived, singletonMergeCond]
  cases hm : alookup attrs "merge" with
  | none =>
    by_cases hu : attrIsTrue attrs "unique" = true <;>
      simp [hu, mem_ssInsert]
  | some m =>
    by_cases h1 : (m = "match" || m = "min" || m = "max") = true <;>
      by_cases h2 : (m = "match" || m = "replace" || m = "min" || m = "max") = true <;>
      by_cases hu : attrIsTrue attrs "unique" = true <;>
      by_cases h3 : (alookup r.parentmapping pname).isSome = true <;>
      simp [h1, h2, h3, hu, mem_ssInsert]

theorem exceptOkBind {ε α β : Type} (a : α) (f : α → Except ε β) :
    (Except.ok a >>= f) = f a := rfl

theorem exceptErrBind {ε α β : Type} (e : ε) (f : α → Except ε β) :
    ((Except.error e : Except ε α) >>= f) = .error e := rfl

/-- If the registry holds record `r` for the event type, a successful
`AddNewProperty` stores exactly `addPropDerived r pname attrs` for it. -/
theorem AddNewProperty_ok_rec {defs defs' : EDXMLDefinitions} {etn pname : String}
    {attrs : AttrMap} {r : EventTypeRec}
    (hr : alookup defs.EventTypes etn = some r)
    (h : AddNewProperty defs etn pname attrs = .ok defs') :
    alookup defs'.EventTypes etn = some (addPropDerived r pname attrs) := by
  rw [AddNewProperty] at h
  cases hpnl : alookup defs.PropertyNames etn <;> rw [hpnl] at h
  · cases h
  · simp only [exceptOkBind] at h
    rcases exceptBind_eq_ok.mp h with ⟨u, hval, h2⟩
    cases u
    try simp only at h2
    cases hotl : alookup attrs "object-type" <;> rw [hotl] at h2
    · cases h2
    · simp only [exceptOkBind] at h2
      rw [hr] at h2
      simp only [exceptOkBind] at h2
      by_cases hde : attrIsTrue attrs "defines-entity" = true
      · rw [if_pos hde] at h2
        cases hep : alookup defs.EntityProperties etn <;> rw [hep] at h2
        · cases h2
        · simp only [exceptOkBind] at h2
          cases h2
          try simp only
          rw [alookup_aset_self]
          rfl
      · rw [if_neg hde] at h2
        try simp only [exceptOkBind] at h2
        cases h2
        try simp only
        rw [alookup_aset_self]
        rfl

theorem existsMemCons_or {α : Type} {P : α → Prop} {R : Prop} {a : α}
    {l : List α} :
    ((∃ x ∈ l, P x) ∨ (P a ∨ R)) ↔ ((∃ x ∈ a :: l, P x) ∨ R) := by
  simp only [List.mem_cons]
  constructor
  · rintro (⟨x, hx, hp⟩ | (hp | hr))
    · exact Or.inl ⟨x, Or.inr hx, hp⟩
    · exact Or.inl ⟨a, Or.inl rfl, hp⟩
    · exact Or.inr hr
  · rintro (⟨x, hx | hx, hp⟩ | hr)
    · subst hx; exact Or.inr (Or.inl hp)
    · exact Or.inl ⟨x, hx, hp⟩
    · exact Or.inr (Or.inr hr)

/-- Running `AddNewProperty` once per element of `adds` grows the derived
sets of the event type record exactly by the properties whose attributes
satisfy the corresponding condition, leaves the parent map unchanged, and
ors the unique flags. -/
theorem addFold_derived (etn : String) :
    ∀ (adds : List (String × AttrMap)) (defs defs' : EDXMLDefinitions)
      (r : EventTypeRec),
    alookup defs.EventTypes etn = some r →
    List.foldlM (fun d pa => AddNewProperty d etn pa.1 pa.2) defs adds = .ok defs' →
    ∃ r', alookup defs'.EventTypes etn = some r' ∧
      r'.parentmapping = r.parentmapping ∧
      r'.unique = (r.unique || adds.any (fun pa => attrIsTrue pa.2 "unique")) ∧
      (∀ p, p ∈ r'.uniqueProperties ↔
        (∃ pa ∈ adds, p = pa.1 ∧ attrIsTrue pa.2 "unique" = true) ∨
        p ∈ r.uniqueProperties) ∧
      (∀ p, p ∈ r'.mandatoryProperties ↔
        (∃ pa ∈ adds, p = pa.1 ∧ mandatoryMergeCond pa.2 = true) ∨
        p ∈ r.mandatoryProperties) ∧
      (∀ p, p ∈ r'.singletonProperties ↔
        (∃ pa ∈ adds, p = pa.1 ∧ singletonMergeCond r.parentmapping pa.2 pa.1 = true) ∨
        p ∈ r.singletonProperties)
  | [], defs, defs', r, hr, hf => by
    cases hf
    exact ⟨r, hr, rfl, by simp, by simp, by simp, by simp⟩
  | pa :: rest, defs, defs', r, hr, hf => by
    rw [List.foldlM_cons] at hf
    rcases exceptBind_eq_ok.mp hf with ⟨d1, hstep, hrest⟩
    have h1 := AddNewProperty_ok_rec hr hstep
    rcases addFold_derived etn rest d1 defs' (addPropDerived r pa.1 pa.2) h1 hrest
      with ⟨r', ha, hpm, hflag, hU, hM, hS⟩
    refine ⟨r', ha, ?_, ?_, ?_, ?_, ?_⟩
    · rw [hpm, addPropDerived_pm]
    · rw [hflag, addPropDerived_unique_flag, List.any_cons, Bool.or_assoc]
    · intro p
      rw [hU p, addPropDerived_unique_mem]
      exact existsMemCons_or
    · intro p
      rw [hM p, addPropDerived_mandatory_mem]
      exact existsMemCons_or
    · intro p
      rw [hS p, addPropDerived_singleton_mem]
      simp only [addPropDerived_pm]
      exact existsMemCons_or

/-- C7 (amended): starting from an event type record with empty derived
sets and a cleared unique flag, after any successful sequence of
`AddNewProperty` calls a property is in unique-properties iff it was
registered with `unique=true`; in mandatory-properties iff it was
registered with a merge attribute whose value is `match`, `min` or `max`;
in singleton-properties iff it was registered **with a merge attribute
present** and either the merge value is `match`, `replace`, `min` or `max`
or the property is a key of the event type's parent map (the claim as
stated omits the merge-presence requirement, which the counterexample
refutes); the parent map is unchanged; and the unique flag is true iff
unique-properties is non-empty. -/
theorem claim_C7_amended (defs defs' : EDXMLDefinitions) (etn : String)
    (adds : List (String × AttrMap)) (r0 : EventTypeRec)
    (h0 : alookup defs.EventTypes etn = some r0)
    (hu0 : r0.unique = false) (hU0 : r0.uniqueProperties = [])
    (hM0 : r0.mandatoryProperties = []) (hS0 : r0.singletonProperties = [])
    (hfold : List.foldlM (fun d pa => AddNewProperty d etn pa.1 pa.2) defs adds
      = .ok defs') :
    ∃ r', alookup defs'.EventTypes etn = some r' ∧
      r'.parentmapping = r0.parentmapping ∧
      (∀ p, p ∈ r'.uniqueProperties ↔
        ∃ pa ∈ adds, p = pa.1 ∧ attrIsTrue pa.2 "unique" = true) ∧
      (∀ p, p ∈ r'.mandatoryProperties ↔
        ∃ pa ∈ adds, p = pa.1 ∧ mandatoryMergeCond pa.2 = true) ∧
      (∀ p, p ∈ r'.singletonProperties ↔
        ∃ pa ∈ adds, p = pa.1 ∧ singletonMergeCond r0.parentmapping pa.2 pa.1 = true) ∧
      (r'.unique = true ↔ r'.uniqueProperties ≠ []) := by
  rcases addFold_derived etn adds defs defs' r0 h0 hfold with
    ⟨r', ha, hpm, hflag, hU, hM, hS⟩
  refine ⟨r', ha, hpm, ?_, ?_, ?_, ?_⟩
  · intro p; rw [hU p, hU0]; simp
  · intro p; rw [hM p, hM0]; simp
  · intro p; rw [hS p, hS0]; simp
  · rw [hflag, hu0, Bool.false_or, List.any_eq_true]
    constructor
    · rintro ⟨pa, hmem, hcond⟩
      exact List.ne_nil_of_mem
        ((hU pa.1).mpr (Or.inl ⟨pa, hmem, rfl, hcond⟩))
    · intro hne
      cases hul : r'.uniqueProperties with
      | nil => exact absurd hul hne
      | cons a t =>
        have ham : a ∈ r'.uniqueProperties := by
          rw [hul]; exact List.mem_cons_self a t
        rcases (hU a).mp ham with ⟨pa, hmem, _, hcond⟩ | hin
        · exact ⟨pa, hmem, hcond⟩
        · rw [hU0] at hin
          cases hin

/-- C7 as stated fails: after registering event type `et` with parent
property map `p -> q` and then property `p` with no merge attribute, the
claim's singleton condition holds for `p` (it is a key of the parent map)
yet `p` is not in the stored singleton-properties set, because the code
only evaluates the parent-map rule when a merge attribute is present. -/
theorem claim_C7_counterexample :
    c7Trace = .ok c7TraceDefs ∧
    alookup c7TraceDefs.EventTypes "et" = some c7TraceRec ∧
    claimSingletonCond c7TraceRec.parentmapping c7PropAttrs "p" = true ∧
    singletonMergeCond c7TraceRec.parentmapping c7PropAttrs "p" = false ∧
    "p" ∉ c7TraceRec.singletonProperties := by decide

/-! ## Claim C1 — the sticky hash preimage -/

theorem exceptPureBind {ε α β : Type} (a : α) (f : α → Except ε β) :
    ((pure a : Except ε α) >>= f) = f a := rfl

/-- `hashStep` acts on the accumulator exactly as `hashClass` classifies
the pair: propagate the error, keep the set, or insert one string. -/
theorem hashStep_shape (defs : EDXMLDefinitions) (etn : String)
    (acc : List String) (pv : String × String) :
    hashStep defs etn acc pv =
      match hashClass defs etn pv with
      | .err e => .error e
      | .skip => .ok acc
      | .add s => .ok (ssInsert s acc) := by
  rw [hashStep, hashClass, EventTypeIsUnique, PropertyIsUnique]
  cases h1 : alookup defs.EventTypes etn with
  | none => rfl
  | some r =>
    simp only [exceptOkBind]
    cases hu : r.unique with
    | true =>
      rw [if_pos rfl]
      simp only [exceptOkBind, exceptPureBind]
      cases hm : ssMem pv.1 r.uniqueProperties with
      | false =>
        rw [if_pos (by decide), if_pos (by decide)]
      | true =>
        rw [if_neg (by decide), if_neg (by decide)]
        try simp only
        cases hot : GetPropertyObjectType defs etn pv.1 with
        | error e => rfl
        | ok ot =>
          simp only [exceptOkBind]
          cases hdt : GetObjectTypeDataType defs ot with
          | error e => rfl
          | ok dtStr =>
            simp only [exceptOkBind]
            by_cases hn : ((splitCh ':' dtStr.data).map
                (fun cs => String.mk cs)).head? = some "number"
            · simp only [if_pos hn]
              cases hg : ((splitCh ':' dtStr.data).map
                  (fun cs => String.mk cs)).get? 1 with
              | none => rfl
              | some d1 =>
                by_cases hfd : (d1 = "float" || d1 = "double") = true
                · simp only [if_pos hfd]
                · simp only [if_neg hfd]
                  cases hnv : NormalizeObject pv.2 ((splitCh ':' dtStr.data).map
                      (fun cs => String.mk cs)) with
                  | error e => rfl
                  | ok nv => simp only [exceptOkBind]
            · simp only [if_neg hn]
              cases hnv : NormalizeObject pv.2 ((splitCh ':' dtStr.data).map
                  (fun cs => String.mk cs)) with
              | error e => rfl
              | ok nv => simp only [exceptOkBind]
    | false =>
      rw [if_neg (by decide)]
      simp only [exceptPureBind]
      rw [if_neg (by decide),
        if_neg (by simp : ¬((false && !(ssMem pv.1 r.uniqueProperties)) = true))]
      try simp only
      cases hot : GetPropertyObjectType defs etn pv.1 with
      | error e => rfl
      | ok ot =>
        simp only [exceptOkBind]
        cases hdt : GetObjectTypeDataType defs ot with
        | error e => rfl
        | ok dtStr =>
          simp only [exceptOkBind]
          by_cases hn : ((splitCh ':' dtStr.data).map
              (fun cs => String.mk cs)).head? = some "number"
          · simp only [if_pos hn]
            cases hg : ((splitCh ':' dtStr.data).map
                (fun cs => String.mk cs)).get? 1 with
            | none => rfl
            | some d1 =>
              by_cases hfd : (d1 = "float" || d1 = "double") = true
              · simp only [if_pos hfd]
              · simp only [if_neg hfd]
                cases hnv : NormalizeObject pv.2 ((splitCh ':' dtStr.data).map
                    (fun cs => String.mk cs)) with
                | error e => rfl
                | ok nv => simp only [exceptOkBind]
          · simp only [if_neg hn]
            cases hnv : NormalizeObject pv.2 ((splitCh ':' dtStr.data).map
                (fun cs => String.mk cs)) with
            | error e => rfl
            | ok nv => simp only [exceptOkBind]

/-- `hashClass` agrees with the specification's per-pair contribution:
a skipped pair contributes nothing, an inserted string is exactly the
contribution. -/
theorem hashClass_specContrib (defs : EDXMLDefinitions) (etn : String)
    (pv : String × String) :
    (hashClass defs etn pv = .skip → specContrib defs etn pv = none) ∧
    (∀ s, hashClass defs etn pv = .add s → specContrib defs etn pv = some s) := by
  rw [hashClass, specContrib, uniquelySkipped, floatSkipped, propSplitDataType]
  simp only [GetPropertyObjectType, GetObjectTypeDataType]
  cases h1 : alookup defs.EventTypes etn with
  | none => exact ⟨(fun h => nomatch h), (fun s h => nomatch h)⟩
  | some r =>
    simp only
    by_cases hc : (r.unique && !(ssMem pv.1 r.uniqueProperties)) = true
    · rw [if_pos hc, if_pos hc]
      exact ⟨(fun _ => rfl), (fun s h => nomatch h)⟩
    · rw [if_neg hc, if_neg hc]
      cases h2 : alookup r.properties pv.1 with
      | none => exact ⟨(fun h => nomatch h), (fun s h => nomatch h)⟩
      | some attrs =>
        simp only
        cases h3 : alookup attrs "object-type" with
        | none => exact ⟨(fun h => nomatch h), (fun s h => nomatch h)⟩
        | some ot =>
          simp only
          cases h4 : alookup defs.ObjectTypes ot with
          | none => exact ⟨(fun h => nomatch h), (fun s h => nomatch h)⟩
          | some oattrs =>
            simp only
            cases h5 : alookup oattrs "data-type" with
            | none => exact ⟨(fun h => nomatch h), (fun s h => nomatch h)⟩
            | some dtStr =>
              simp only
              by_cases hn : ((splitCh ':' dtStr.data).map
                  (fun cs => String.mk cs)).head? = some "number"
              · simp only [if_pos hn]
                cases hg : ((splitCh ':' dtStr.data).map
                    (fun cs => String.mk cs)).get? 1 with
                | none => exact ⟨(fun h => nomatch h), (fun s h => nomatch h)⟩
                | some d1 =>
                  by_cases hfd : (d1 = "float" || d1 = "double") = true
                  · simp only [if_pos hfd]
                    simp only [Bool.or_eq_true, decide_eq_true_eq] at hfd
                    refine ⟨fun _ => ?_, fun s h => nomatch h⟩
                    rcases hfd with h | h <;> subst h <;>
                      rw [if_pos (by simp [hn])]
                  · simp only [if_neg hfd]
                    have hfs : ¬((decide (((splitCh ':' dtStr.data).map
                        (fun cs => String.mk cs)).head? = some "number") &&
                        (decide ((some d1 : Option String) = some "float") ||
                         decide ((some d1 : Option String) = some "double"))) = true) := by
                      simp only [Bool.and_eq_true, Bool.or_eq_true,
                        decide_eq_true_eq, Option.some.injEq, not_and, not_or]
                      intro _
                      constructor
                      · intro he
                        exact hfd (by simp [he])
                      · intro he
                        exact hfd (by simp [he])
                    rw [if_neg hfs]
                    cases hnv : NormalizeObject pv.2 ((splitCh ':' dtStr.data).map
                        (fun cs => String.mk cs)) with
                    | error e =>
                      exact ⟨(fun h => nomatch h), (fun s h => nomatch h)⟩
                    | ok nv =>
                      exact ⟨(fun h => nomatch h), (fun s h => by cases h; rfl)⟩
              · simp only [if_neg hn]
                have hfs : ¬((decide (((splitCh ':' dtStr.data).map
                    (fun cs => String.mk cs)).head? = some "number") &&
                    (decide (((splitCh ':' dtStr.data).map
                      (fun cs => String.mk cs)).get? 1 = some "float") ||
                     decide (((splitCh ':' dtStr.data).map
                      (fun cs => String.mk cs)).get? 1 = some "double"))) = true) := by
                  simp only [Bool.and_eq_true, decide_eq_true_eq]
                  rintro ⟨ha, -⟩
                  exact hn ha
                rw [if_neg hfs]
                cases hnv : NormalizeObject pv.2 ((splitCh ':' dtStr.data).map
                    (fun cs => String.mk cs)) with
                | error e =>
                  exact ⟨(fun h => nomatch h), (fun s h => nomatch h)⟩
                | ok nv =>
                  exact ⟨(fun h => nomatch h), (fun s h => by cases h; rfl)⟩

/-- The amended C7 at a concrete history: event type `e` with parent map
`p -> q`, a unique property `u` with merge `match`, then property `p`
without attributes; the derived sets and the unique flag come out as the
amended invariant states. -/
theorem claim_C7_witness :
    ∃ r', alookup c7wDefs'.EventTypes "e" = some r' ∧
      r'.parentmapping = c7wRec.parentmapping ∧
      (∀ p, p ∈ r'.uniqueProperties ↔
        ∃ pa ∈ c7wAdds, p = pa.1 ∧ attrIsTrue pa.2 "unique" = true) ∧
      (∀ p, p ∈ r'.mandatoryProperties ↔
        ∃ pa ∈ c7wAdds, p = pa.1 ∧ mandatoryMergeCond pa.2 = true) ∧
      (∀ p, p ∈ r'.singletonProperties ↔
        ∃ pa ∈ c7wAdds, p = pa.1 ∧
          singletonMergeCond c7wRec.parentmapping pa.2 pa.1 = true) ∧
      (r'.unique = true ↔ r'.uniqueProperties ≠ []) :=
  claim_C7_amended c7wDefs c7wDefs' "e" c7wAdds c7wRec rfl rfl rfl rfl rfl
    (by decide)

/-- The accumulated object-string set of the sticky hash loop: it stays
sorted, every visited pair classifies without error, and membership is
exactly "inserted by some pair, or already present". -/
theorem stickyFold_spec (defs : EDXMLDefinitions) (etn : String) :
    ∀ (objs : List (String × String)) (acc S : List String), SortedSS acc →
    List.foldlM (hashStep defs etn) acc objs = .ok S →
    SortedSS S ∧
    (∀ pv ∈ objs, hashClassOk (hashClass defs etn pv) = true) ∧
    (∀ x, x ∈ S ↔ (∃ pv ∈ objs, hashClass defs etn pv = .add x) ∨ x ∈ acc)
  | [], acc, S, hs, hf => by
    cases hf
    exact ⟨hs, by simp, fun x => by simp⟩
  | pv :: rest, acc, S, hs, hf => by
    rw [List.foldlM_cons] at hf
    rcases exceptBind_eq_ok.mp hf with ⟨acc1, hstep, hrest⟩
    rw [hashStep_shape] at hstep
    cases hc : hashClass defs etn pv <;> rw [hc] at hstep
    · cases hstep
    · cases hstep
      rcases stickyFold_spec defs etn rest acc S hs hrest with ⟨hS, hok, hmem⟩
      refine ⟨hS, ?_, fun x => ?_⟩
      · intro pv' hpv'
        rcases List.mem_cons.mp hpv' with h | h
        · subst h; rw [hc]; rfl
        · exact hok pv' h
      · rw [hmem x]
        constructor
        · rintro (⟨pv', hmemo, hadd⟩ | hacc)
          · exact Or.inl ⟨pv', List.mem_cons_of_mem _ hmemo, hadd⟩
          · exact Or.inr hacc
        · rintro (⟨pv', hmemo, hadd⟩ | hacc)
          · rcases List.mem_cons.mp hmemo with h | h
            · subst h; rw [hc] at hadd; cases hadd
            · exact Or.inl ⟨pv', h, hadd⟩
          · exact Or.inr hacc
    · rename_i s
      cases hstep
      rcases stickyFold_spec defs etn rest (ssInsert s acc) S
        (ssInsert_sorted hs) hrest with ⟨hS, hok, hmem⟩
      refine ⟨hS, ?_, fun x => ?_⟩
      · intro pv' hpv'
        rcases List.mem_cons.mp hpv' with h | h
        · subst h; rw [hc]; rfl
        · exact hok pv' h
      · rw [hmem x]
        constructor
        · rintro (⟨pv', hmemo, hadd⟩ | hins)
          · exact Or.inl ⟨pv', List.mem_cons_of_mem _ hmemo, hadd⟩
          · rcases mem_ssInsert.mp hins with h | h
            · subst h
              exact Or.inl ⟨pv, List.mem_cons_self pv rest, hc⟩
            · exact Or.inr h
        · rintro (⟨pv', hmemo, hadd⟩ | hacc)
          · rcases List.mem_cons.mp hmemo with h | h
            · subst h
              rw [hc] at hadd
              cases hadd
              exact Or.inr (mem_ssInsert.mpr (Or.inl rfl))
            · exact Or.inl ⟨pv', h, hadd⟩
          · exact Or.inr (mem_ssInsert.mpr (Or.inr hacc))

/-- C1: when the event type is registered and the object loop succeeds,
ComputeStickyHash returns the lowercase hex SHA-1 of the UTF-8 encoded
preimage `event_type + '\n' + join(S)` for a unique event type and
`event_type + '\n' + join(S) + '\n' + content` otherwise, where `S` is the
specification's lexicographically sorted set of `property:normalized_value`
strings; ComputeStickyHashV3 prefixes the same preimage with
`source_url + '\n'`. -/
theorem claim_C1_hash_preimage (defs : EDXMLDefinitions)
    (etn srcUrl content : String) (objs : List (String × String))
    (r : EventTypeRec) (S : List String)
    (hr : alookup defs.EventTypes etn = some r)
    (hf : stickyHashObjectStrings defs etn objs = .ok S) :
    ComputeStickyHash defs etn objs content = .ok (sha1HexUtf8
      (if r.unique then
        etn ++ "\n" ++ String.intercalate "\n" (specStickySet defs etn objs)
      else
        etn ++ "\n" ++ String.intercalate "\n" (specStickySet defs etn objs)
          ++ "\n" ++ content)) ∧
    ComputeStickyHashV3 defs etn srcUrl objs content = .ok (sha1HexUtf8
      (if r.unique then
        srcUrl ++ "\n" ++ etn ++ "\n" ++
          String.intercalate "\n" (specStickySet defs etn objs)
      else
        srcUrl ++ "\n" ++ etn ++ "\n" ++
          String.intercalate "\n" (specStickySet defs etn objs)
          ++ "\n" ++ content)) := by
  have hspec : S = specStickySet defs etn objs := by
    rcases stickyFold_spec defs etn objs [] S (by simp [SortedSS]) hf with
      ⟨hS, hok, hmem⟩
    refine sortedSS_ext hS sortStrings_sorted ?_
    intro x
    rw [hmem x, specStickySet, mem_sortStrings]
    constructor
    · rintro (⟨pv, hmemo, hadd⟩ | hfalse)
      · exact List.mem_filterMap.mpr
          ⟨pv, hmemo, (hashClass_specContrib defs etn pv).2 x hadd⟩
      · exact absurd hfalse (List.not_mem_nil x)
    · intro hx
      rcases List.mem_filterMap.mp hx with ⟨pv, hmemo, hcontr⟩
      have hok' := hok pv hmemo
      left
      cases hcl : hashClass defs etn pv with
      | err e => rw [hcl] at hok'; cases hok'
      | skip =>
        rw [(hashClass_specContrib defs etn pv).1 hcl] at hcontr
        cases hcontr
      | add s =>
        rw [(hashClass_specContrib defs etn pv).2 s hcl] at hcontr
        cases hcontr
        exact ⟨pv, hmemo, hcl⟩
  rw [← hspec]
  constructor
  · rw [ComputeStickyHash, hf]
    simp only [exceptOkBind]
    rw [EventTypeIsUnique, hr]
    simp only [exceptOkBind]
    cases hu : r.unique with
    | true => rw [if_pos rfl, if_pos rfl]
    | false => rw [if_neg (by decide), if_neg (by decide)]
  · rw [ComputeStickyHashV3, hf]
    simp only [exceptOkBind]
    rw [EventTypeIsUnique, hr]
    simp only [exceptOkBind]
    cases hu : r.unique with
    | true => rw [if_pos rfl, if_pos rfl]
    | false => rw [if_neg (by decide), if_neg (by decide)]

/-- C1 at a concrete registry: the unique event type `et` with objects on
properties `u` (unique), `a` and `m`; both hash versions return the SHA-1
of the stated preimage over the specification's sorted set. -/
theorem claim_C1_witness :
    ComputeStickyHash s4Defs "et" c1wObjs "c" = .ok (sha1HexUtf8
      (if s4Rec.unique then
        "et" ++ "\n" ++ String.intercalate "\n" (specStickySet s4Defs "et" c1wObjs)
      else
        "et" ++ "\n" ++ String.intercalate "\n" (specStickySet s4Defs "et" c1wObjs)
          ++ "\n" ++ "c")) ∧
    ComputeStickyHashV3 s4Defs "et" "u://s" c1wObjs "c" = .ok (sha1HexUtf8
      (if s4Rec.unique then
        "u://s" ++ "\n" ++ "et" ++ "\n" ++
          String.intercalate "\n" (specStickySet s4Defs "et" c1wObjs)
      else
        "u://s" ++ "\n" ++ "et" ++ "\n" ++
          String.intercalate "\n" (specStickySet s4Defs "et" c1wObjs)
          ++ "\n" ++ "c")) :=
  claim_C1_hash_preimage s4Defs "et" "u://s" "c" c1wObjs s4Rec
    (specStickySet s4Defs "et" c1wObjs) rfl (by decide)

/-! ## Claim C2 — hash invariance under reordering, duplicates and float
values -/

/-- A pair that contributes a string to the hash set is not of a
`number:float` or `number:double` property. -/
theorem specContrib_some_not_floatSkipped {defs : EDXMLDefinitions}
    {etn : String} {pv : String × String} {s : String}
    (h : specContrib defs etn pv = some s) :
    floatSkipped defs etn pv.1 = false := by
  rw [specContrib] at h
  by_cases h1 : uniquelySkipped defs etn pv.1 = true
  · rw [if_pos h1] at h; cases h
  · rw [if_neg h1] at h
    cases hb : floatSkipped defs etn pv.1 with
    | false => rfl
    | true => rw [if_pos hb] at h; cases h

/-- C2: two events of the same event type, source URL and content whose
object lists differ only in order, in duplicated pairs, or in the values
of properties whose object-type data type is number:float or
number:double, get equal v2 digests and equal v3 digests. -/
theorem claim_C2_hash_invariance (defs : EDXMLDefinitions)
    (etn srcUrl content : String) (objs objs' : List (String × String))
    (S S' : List String)
    (h1 : ∀ pv ∈ objs, pv ∈ objs' ∨ floatSkipped defs etn pv.1 = true)
    (h2 : ∀ pv ∈ objs', pv ∈ objs ∨ floatSkipped defs etn pv.1 = true)
    (hf : stickyHashObjectStrings defs etn objs = .ok S)
    (hf' : stickyHashObjectStrings defs etn objs' = .ok S') :
    ComputeStickyHash defs etn objs content
      = ComputeStickyHash defs etn objs' content ∧
    ComputeStickyHashV3 defs etn srcUrl objs content
      = ComputeStickyHashV3 defs etn srcUrl objs' content := by
  rcases stickyFold_spec defs etn objs [] S (by simp [SortedSS]) hf with
    ⟨hS, hok, hmem⟩
  rcases stickyFold_spec defs etn objs' [] S' (by simp [SortedSS]) hf' with
    ⟨hS', hok', hmem'⟩
  have hSS : S = S' := by
    refine sortedSS_ext hS hS' ?_
    intro x
    rw [hmem x, hmem' x]
    constructor
    · rintro (⟨pv, hm, hadd⟩ | hc)
      · rcases h1 pv hm with hin | hfl
        · exact Or.inl ⟨pv, hin, hadd⟩
        · rw [specContrib_some_not_floatSkipped
            ((hashClass_specContrib defs etn pv).2 x hadd)] at hfl
          cases hfl
      · exact absurd hc (List.not_mem_nil x)
    · rintro (⟨pv, hm, hadd⟩ | hc)
      · rcases h2 pv hm with hin | hfl
        · exact Or.inl ⟨pv, hin, hadd⟩
        · rw [specContrib_some_not_floatSkipped
            ((hashClass_specContrib defs etn pv).2 x hadd)] at hfl
          cases hfl
      · exact absurd hc (List.not_mem_nil x)
  subst hSS
  constructor
  · simp only [ComputeStickyHash, hf, hf', exceptOkBind]
  · simp only [ComputeStickyHashV3, hf, hf', exceptOkBind]

/-- C2 at a concrete registry: reordering the pairs, duplicating `p:x` and
changing the float value `1.5` to `2.5` leaves both digests unchanged. -/
theorem claim_C2_witness :
    ComputeStickyHash c2wDefs "ev" c2wObjs "c"
      = ComputeStickyHash c2wDefs "ev" c2wObjsR "c" ∧
    ComputeStickyHashV3 c2wDefs "ev" "u://s" c2wObjs "c"
      = ComputeStickyHashV3 c2wDefs "ev" "u://s" c2wObjsR "c" :=
  claim_C2_hash_invariance c2wDefs "ev" "u://s" "c" c2wObjs c2wObjsR
    ["p:x", "p:y"] ["p:x", "p:y"] (by decide) (by decide) (by decide) (by decide)

end EDXML
